import Mathlib

/-!
Verification development for the selgetabel Excel-processing core:
the table/file data model, the operation parser/validator, the JSON
expression evaluator, the Excel formula generator and the executor.

The engine itself (`apps/api/app/engine/*.py`) is not part of the
checked-in sources; every definition below is therefore modelled from
the natural-language specification (spec.md) and the repository's own
design documents, as indicated by the doc comments.
-/

namespace Selgetabel

/-- Modelled from the spec: a cell value is `number | text | boolean | empty`
(spec §3, Table data model). -/
inductive CellValue where
  | num (q : ℚ)
  | text (s : String)
  | boolean (b : Bool)
  | blank
deriving DecidableEq, Repr

/-- Modelled from the spec: a blank is distinct from a zero (spec §4.2);
the design log adds `_is_blank` treating empty strings as blank as well. -/
def CellValue.isBlank : CellValue → Bool
  | .blank => true
  | .text s => s == ""
  | _ => false

/-- Modelled from the spec: `_is_valid_number` — only genuine numeric cells
participate in numeric aggregation (spec §4.2, design log item 3). -/
def CellValue.isValidNumber : CellValue → Bool
  | .num _ => true
  | _ => false

/-- The numeric entries of a column, in order, with blanks and other
non-numeric cells dropped. -/
def numsOf (vs : List CellValue) : List ℚ :=
  vs.filterMap fun v => match v with
    | .num q => some q
    | _ => none

/-- Association-list lookup keyed by strings (first match wins). -/
def lookupAssoc {α : Type} (l : List (String × α)) (k : String) : Option α :=
  (l.find? (fun p => p.1 == k)).map (fun p => p.2)

/-- Modelled from the spec: a `Table` holds one sheet's columnar data —
a name plus an ordered list of (column name, cell list) pairs (spec §3). -/
structure Table where
  name : String
  cols : List (String × List CellValue)
deriving DecidableEq, Repr

def Table.getColumn (t : Table) (c : String) : Option (List CellValue) :=
  lookupAssoc t.cols c

def Table.colNames (t : Table) : List String := t.cols.map (fun p => p.1)

def Table.hasColumn (t : Table) (c : String) : Bool :=
  t.cols.any (fun p => p.1 == c)

def Table.rowCount (t : Table) : Nat :=
  match t.cols with
  | [] => 0
  | p :: _ => p.2.length

/-- First column index carrying the given name (the evaluator, the
generator and the workbook all resolve names first-match). -/
def Table.colIndex (t : Table) (c : String) : Option Nat :=
  t.cols.findIdx? (fun p => p.1 == c)

/-- Modelled from the spec: an `ExcelFile` groups the sheets of one
uploaded file under its file id (spec §3, FileRegistry). -/
structure ExcelFile where
  fileId : String
  filename : String
  sheets : List (String × Table)
deriving DecidableEq, Repr

/-- Modelled from the spec: the top-level registry maps
file-id → sheet-name → Table (spec §3). -/
structure FileRegistry where
  files : List (String × ExcelFile)
deriving DecidableEq, Repr

/-- Two-layer access `get_table(file_id, sheet_name)` (design doc,
FileCollection). -/
def FileRegistry.getTable (reg : FileRegistry) (fid sheet : String) : Option Table :=
  match lookupAssoc reg.files fid with
  | none => none
  | some f => lookupAssoc f.sheets sheet

/-- All (sheet name, table) pairs of the registry, files in order. -/
def FileRegistry.allSheets (reg : FileRegistry) : List (String × Table) :=
  reg.files.flatMap (fun p => p.2.sheets)

/-- Whether sheet names are globally unique across the registry (they are
only guaranteed unique per file, spec §3; global uniqueness is the
hypothesis under which a single output workbook is unambiguous). -/
def FileRegistry.noDupSheetNames (reg : FileRegistry) : Bool :=
  ((reg.allSheets).map (fun p => p.1)).Nodup |> decide

mutual
/-- Modelled from the spec: the recursive expression grammar —
`literal`, `column-ref`, `cross-ref`, `variable-ref`, `call`, `binary`
(spec §3, Expression).  `ExprList` is the spine of a call's argument
list, kept as a mutual inductive so that recursion stays structural. -/
inductive Expr where
  | lit (v : CellValue)
  | col (name : String)
  | ref (fileId sheet column : String)
  | evar (name : String)
  | call (fn : String) (args : ExprList)
  | binop (op : String) (l r : Expr)
deriving Repr
inductive ExprList where
  | nil
  | cons (e : Expr) (es : ExprList)
deriving Repr
end

def ExprList.toList : ExprList → List Expr
  | .nil => []
  | .cons e es => e :: es.toList

/-- A value produced during evaluation: either a scalar cell value or a
whole column (produced by cross-refs, consumed by aggregate-style
functions).  Spec §4.2. -/
inductive Value where
  | scalar (v : CellValue)
  | column (vs : List CellValue)
deriving DecidableEq, Repr

/-! ### Scalar coercions and parsing helpers -/

def digitsToNat (l : List Char) : Nat :=
  l.foldl (fun a c => a * 10 + (c.toNat - 48)) 0

/-- Parse a decimal numeral (optional sign, optional fractional part). -/
def parseNumber (s : String) : Option ℚ :=
  let core : List Char → Option ℚ := fun l =>
    match l.splitOn '.' with
    | [w] =>
        if w.all Char.isDigit && !w.isEmpty then some ((digitsToNat w : ℚ)) else none
    | [w, f] =>
        if w.all Char.isDigit && f.all Char.isDigit && !(w.isEmpty && f.isEmpty) then
          some ((digitsToNat w : ℚ) + (digitsToNat f : ℚ) / ((10 : ℚ) ^ f.length))
        else none
    | _ => none
  match s.data with
  | '-' :: rest => (core rest).map (fun q => -q)
  | l => core l

def ratToText (q : ℚ) : String :=
  if q.den == 1 then toString q.num
  else toString q.num ++ "/" ++ toString q.den

/-- String coercion, used by the `&` operator and text functions
(spec §4.2: `&` is text concatenation via string coercion). -/
def CellValue.toText : CellValue → String
  | .num q => ratToText q
  | .text s => s
  | .boolean b => if b then "TRUE" else "FALSE"
  | .blank => ""

/-- Numeric coercion for arithmetic (spec §4.2: error if non-numeric). -/
def CellValue.toNumE : CellValue → Except String ℚ
  | .num q => .ok q
  | v => .error ("type mismatch: not a number: " ++ v.toText)

/-- Boolean coercion for logical functions. -/
def CellValue.toBoolE : CellValue → Except String Bool
  | .boolean b => .ok b
  | .num q => .ok (q != 0)
  | v => .error ("type mismatch: not a boolean: " ++ v.toText)

def Value.asScalar : Value → Except String CellValue
  | .scalar v => .ok v
  | .column _ => .error "type mismatch: expected a scalar, got a column"

def Value.asColumn : Value → Except String (List CellValue)
  | .column vs => .ok vs
  | .scalar _ => .error "type mismatch: expected a column, got a scalar"

def scalarsOf (args : List Value) : Except String (List CellValue) :=
  args.mapM Value.asScalar

def numsOfE (args : List Value) : Except String (List ℚ) :=
  args.mapM (fun a => a.asScalar >>= CellValue.toNumE)

/-! ### Condition matching (`*IF` criteria, spec §4.1) -/

/-- Exact-match comparison of two cell values. -/
def valueEq : CellValue → CellValue → Bool
  | .num a, .num b => a == b
  | .text a, .text b => a == b
  | .boolean a, .boolean b => a == b
  | .blank, .blank => true
  | _, _ => false

def numCond (cmp : ℚ → ℚ → Bool) (rest : String) (v : CellValue) : Bool :=
  match parseNumber rest, v with
  | some bound, .num q => cmp q bound
  | _, _ => false

def neqCond (rest : String) (v : CellValue) : Bool :=
  match parseNumber rest with
  | some bound =>
      match v with
      | .num q => q != bound
      | _ => true
  | none => !(valueEq (.text rest) v)

/-- Modelled from the spec: condition values are exact-match literals or one
of the comparison-prefix forms `>` `<` `>=` `<=` `<>` followed by a literal
(spec §4.1). -/
def condTest (cond v : CellValue) : Bool :=
  match cond with
  | .text s =>
      if s.startsWith ">=" then numCond (fun a b => a ≥ b) (s.drop 2) v
      else if s.startsWith "<=" then numCond (fun a b => a ≤ b) (s.drop 2) v
      else if s.startsWith "<>" then neqCond (s.drop 2) v
      else if s.startsWith ">" then numCond (fun a b => a > b) (s.drop 1) v
      else if s.startsWith "<" then numCond (fun a b => a < b) (s.drop 1) v
      else valueEq cond v
  | _ => valueEq cond v

/-! ### Numeric helpers for aggregation -/

def insertRat (x : ℚ) : List ℚ → List ℚ
  | [] => [x]
  | y :: ys => if x ≤ y then x :: y :: ys else y :: insertRat x ys

def sortRats (l : List ℚ) : List ℚ := l.foldr insertRat []

/-- Excel rounding: half away from zero. -/
def roundHalfAway (q : ℚ) : ℤ :=
  if q ≥ 0 then ⌊q + 1 / 2⌋ else -⌊-q + 1 / 2⌋

def roundToDigits (q : ℚ) (d : ℤ) : ℚ :=
  (roundHalfAway (q * (10 : ℚ) ^ d) : ℚ) * (10 : ℚ) ^ (-d)

def minimumRat (l : List ℚ) : ℚ :=
  match l with
  | [] => 0
  | x :: xs => xs.foldl min x

def maximumRat (l : List ℚ) : ℚ :=
  match l with
  | [] => 0
  | x :: xs => xs.foldl max x

def medianRat (l : List ℚ) : Except String ℚ :=
  let s := sortRats l
  let n := s.length
  if n == 0 then .error "MEDIAN: no numeric values"
  else if n % 2 == 1 then .ok (s.getD (n / 2) 0)
  else .ok ((s.getD (n / 2 - 1) 0 + s.getD (n / 2) 0) / 2)

/-! ### Aggregate function semantics

Modelled from the spec: aggregate functions operate over whole columns and
exclude blank/invalid entries from numeric aggregation — a blank is distinct
from a zero (spec §4.2). -/

def aggSUM (vs : List CellValue) : CellValue := .num (numsOf vs).sum

def aggCOUNT (vs : List CellValue) : CellValue := .num ((numsOf vs).length : ℚ)

def aggCOUNTA (vs : List CellValue) : CellValue :=
  .num (((vs.filter (fun v => !v.isBlank)).length : ℚ))

def aggAVERAGE (vs : List CellValue) : Except String CellValue :=
  let ns := numsOf vs
  if ns.isEmpty then .error "AVERAGE: no numeric values"
  else .ok (.num (ns.sum / (ns.length : ℚ)))

/-- Dispatch for the unconditional aggregate functions over one column. -/
def aggApply (fn : String) (vs : List CellValue) : Except String CellValue :=
  match fn with
  | "SUM" => .ok (aggSUM vs)
  | "COUNT" => .ok (aggCOUNT vs)
  | "COUNTA" => .ok (aggCOUNTA vs)
  | "AVERAGE" => aggAVERAGE vs
  | "MIN" => .ok (.num (minimumRat (numsOf vs)))
  | "MAX" => .ok (.num (maximumRat (numsOf vs)))
  | "MEDIAN" => (medianRat (numsOf vs)).map CellValue.num
  | _ => .error ("unknown aggregate function: " ++ fn)

/-- Rows of `dataCol` whose matching `condCol` entry satisfies the
condition (zipped positionally, as SUMIF/AVERAGEIF do). -/
def selectWhere (condCol : List CellValue) (cond : CellValue)
    (dataCol : List CellValue) : List CellValue :=
  ((condCol.zip dataCol).filter (fun p => condTest cond p.1)).map (fun p => p.2)

def aggIfApply (fn : String) (condCol : List CellValue) (cond : CellValue)
    (dataCol : List CellValue) : Except String CellValue :=
  match fn with
  | "SUMIF" => .ok (aggSUM (selectWhere condCol cond dataCol))
  | "AVERAGEIF" => aggAVERAGE (selectWhere condCol cond dataCol)
  | _ => .error ("unknown conditional aggregate function: " ++ fn)

def aggCOUNTIF (condCol : List CellValue) (cond : CellValue) : CellValue :=
  .num (((condCol.filter (condTest cond)).length : ℚ))

/-! ### Text-function helpers -/

/-- Zero-based position of the first occurrence of `sub` in `s` at or after
position `pos` offsets; returns the absolute 0-based position. -/
def findSubAux (sub : List Char) : List Char → Nat → Option Nat
  | [], pos => if sub.isEmpty then some pos else none
  | c :: rest, pos =>
      if sub.isPrefixOf (c :: rest) then some pos
      else findSubAux sub rest (pos + 1)

/-- FIND/SEARCH core: 1-based position of `sub` in `s`, starting the scan at
1-based position `start`. -/
def findSub1 (sub s : List Char) (start : Nat) : Option Nat :=
  if start == 0 then none
  else (findSubAux sub (s.drop (start - 1)) (start - 1)).map (fun p => p + 1)

/-- SUBSTITUTE: replace the `n`-th occurrence (`n = 0`: every occurrence) of
`old` in `s` by `new`; fuel-driven scan over the character list. -/
def substAux (old new : List Char) : Nat → List Char → Nat → List Char
  | 0, s, _ => s
  | _ + 1, [], _ => []
  | fuel + 1, c :: rest, n =>
      if !old.isEmpty && old.isPrefixOf (c :: rest) then
        let remaining := (c :: rest).drop old.length
        match n with
        | 0 => new ++ substAux old new fuel remaining 0
        | 1 => new ++ remaining
        | m + 2 => old ++ substAux old new fuel remaining (m + 1)
      else c :: substAux old new fuel rest n

def substituteText (s old new : String) (n : Nat) : String :=
  String.mk (substAux old.data new.data (s.length + 1) s.data n)

/-- PROPER: first letter of every word upper-cased, the rest lower-cased. -/
def properAux : List Char → Bool → List Char
  | [], _ => []
  | c :: rest, startWord =>
      if c.isAlpha then
        (if startWord then c.toUpper else c.toLower) :: properAux rest false
      else c :: properAux rest true

def properCase (s : String) : String := String.mk (properAux s.data true)

/-! ### The shared function semantics

Modelled from the spec: every whitelisted function "maps to its
identically-named spreadsheet function" (spec §4.3) — the core principle is
that function behaviour and Excel behaviour coincide one-to-one, so a single
definition gives the semantics used by both the Evaluator and the
spreadsheet model. -/

/-- Split a reference string at the dots (`"a.b" ↦ ["a", "b"]`). -/
def splitOnDotAux : List Char → List Char → List String
  | [], acc => [String.mk acc.reverse]
  | c :: rest, acc =>
      if c == '.' then String.mk acc.reverse :: splitOnDotAux rest []
      else splitOnDotAux rest (c :: acc)

def splitDots (s : String) : List String := splitOnDotAux s.data []

/-- VLOOKUP, two-segment table reference (design doc V2): arguments are the
lookup value, a `file-id.sheet` table reference, a key column name and a
value column name; exact match against the key column; an evaluation error
when no row matches. -/
def vlookup (reg : FileRegistry) (lookup : CellValue) (tref keyCol valCol : String) :
    Except String CellValue :=
  match splitDots tref with
  | [fid, sheet] =>
      match reg.getTable fid sheet with
      | none => .error ("VLOOKUP: table not found: " ++ tref)
      | some t =>
          match t.getColumn keyCol, t.getColumn valCol with
          | some keys, some vals =>
              match keys.findIdx? (fun k => valueEq k lookup) with
              | some i => .ok (vals.getD i .blank)
              | none => .error ("VLOOKUP: no match for " ++ lookup.toText)
          | none, _ => .error ("VLOOKUP: key column not found: " ++ keyCol)
          | _, none => .error ("VLOOKUP: value column not found: " ++ valCol)
  | _ => .error ("VLOOKUP: table reference must be file-id.sheet: " ++ tref)

/-- COUNTIFS argument list: alternating (column range, condition). -/
def countifsPairs : List Value → Except String (List (List CellValue × CellValue))
  | [] => .ok []
  | [_] => .error "COUNTIFS: arguments must come in range/condition pairs"
  | r :: c :: rest => do
      let col ← r.asColumn
      let cond ← c.asScalar
      let tail ← countifsPairs rest
      .ok ((col, cond) :: tail)

def countifsCount (pairs : List (List CellValue × CellValue)) : Nat :=
  match pairs with
  | [] => 0
  | (c0, _) :: _ =>
      ((List.range c0.length).filter (fun i =>
        pairs.all (fun p => condTest p.2 (p.1.getD i .blank)))).length

def takeChars (s : String) (n : ℚ) : Except String String :=
  if n < 0 then .error "negative character count"
  else .ok (String.mk (s.data.take (⌊n⌋).toNat))

def takeCharsRight (s : String) (n : ℚ) : Except String String :=
  if n < 0 then .error "negative character count"
  else .ok (String.mk (s.data.drop (s.length - (⌊n⌋).toNat)))

/-- Shared application of a whitelisted function to already-evaluated
argument values.  Covers the aggregate, row-level and scalar whitelists;
which names may appear where is the validator's job (spec §4.1), not the
dispatcher's. -/
def applyFunc (reg : FileRegistry) (fn : String) (args : List Value) :
    Except String CellValue :=
  match fn, args with
  | "SUM", [.column vs] => .ok (aggSUM vs)
  | "COUNT", [.column vs] => .ok (aggCOUNT vs)
  | "COUNTA", [.column vs] => .ok (aggCOUNTA vs)
  | "AVERAGE", [.column vs] => aggAVERAGE vs
  | "MIN", [.column vs] => .ok (.num (minimumRat (numsOf vs)))
  | "MAX", [.column vs] => .ok (.num (maximumRat (numsOf vs)))
  | "MEDIAN", [.column vs] => (medianRat (numsOf vs)).map CellValue.num
  | "SUMIF", [.column cc, .scalar cond, .column dc] => .ok (aggSUM (selectWhere cc cond dc))
  | "AVERAGEIF", [.column cc, .scalar cond, .column dc] => aggAVERAGE (selectWhere cc cond dc)
  | "COUNTIF", [.column cc, .scalar cond] => .ok (aggCOUNTIF cc cond)
  | "MIN", _ => do
      let ns ← numsOfE args
      if ns.isEmpty then .error "MIN: no arguments" else .ok (.num (minimumRat ns))
  | "MAX", _ => do
      let ns ← numsOfE args
      if ns.isEmpty then .error "MAX: no arguments" else .ok (.num (maximumRat ns))
  | "IF", [c, a, b] => do
      let cv ← c.asScalar
      let cb ← cv.toBoolE
      if cb then a.asScalar else b.asScalar
  | "AND", _ => do
      let ss ← scalarsOf args
      let bs ← ss.mapM CellValue.toBoolE
      .ok (.boolean (bs.all id))
  | "OR", _ => do
      let ss ← scalarsOf args
      let bs ← ss.mapM CellValue.toBoolE
      .ok (.boolean (bs.any id))
  | "NOT", [a] => do
      let v ← a.asScalar
      let b ← v.toBoolE
      .ok (.boolean (!b))
  | "ISBLANK", [a] => do
      let v ← a.asScalar
      .ok (.boolean v.isBlank)
  | "ISNUMBER", [a] => do
      let v ← a.asScalar
      .ok (.boolean v.isValidNumber)
  | "ISNA", [a] => do
      let v ← a.asScalar
      .ok (.boolean v.isBlank)
  | "ISERROR", [_] => .ok (.boolean false)
  | "IFERROR", [a, _] => a.asScalar
  | "COUNTIFS", _ => do
      let pairs ← countifsPairs args
      if pairs.isEmpty then .error "COUNTIFS: no arguments"
      else .ok (.num (countifsCount pairs : ℚ))
  | "VLOOKUP", [lv, tr, kc, vc] => do
      let lookup ← lv.asScalar
      let trv ← tr.asScalar
      let kcv ← kc.asScalar
      let vcv ← vc.asScalar
      match trv, kcv, vcv with
      | .text ts, .text ks, .text vs => vlookup reg lookup ts ks vs
      | _, _, _ => .error "VLOOKUP: table/column references must be text"
  | "ROUND", [a, d] => do
      let q ← (← a.asScalar).toNumE
      let dg ← (← d.asScalar).toNumE
      .ok (.num (roundToDigits q ⌊dg⌋))
  | "ABS", [a] => do
      let q ← (← a.asScalar).toNumE
      .ok (.num |q|)
  | "LEFT", [a, n] => do
      let s := (← a.asScalar).toText
      let q ← (← n.asScalar).toNumE
      (takeChars s q).map CellValue.text
  | "LEFT", [a] => do
      let s := (← a.asScalar).toText
      (takeChars s 1).map CellValue.text
  | "RIGHT", [a, n] => do
      let s := (← a.asScalar).toText
      let q ← (← n.asScalar).toNumE
      (takeCharsRight s q).map CellValue.text
  | "RIGHT", [a] => do
      let s := (← a.asScalar).toText
      (takeCharsRight s 1).map CellValue.text
  | "MID", [a, st, ln] => do
      let s := (← a.asScalar).toText
      let stq ← (← st.asScalar).toNumE
      let lnq ← (← ln.asScalar).toNumE
      if stq < 1 then .error "MID: start position must be at least 1"
      else if lnq < 0 then .error "MID: negative length"
      else .ok (.text (String.mk ((s.data.drop ((⌊stq⌋).toNat - 1)).take (⌊lnq⌋).toNat)))
  | "LEN", [a] => do
      let s := (← a.asScalar).toText
      .ok (.num (s.length : ℚ))
  | "TRIM", [a] => do
      let s := (← a.asScalar).toText
      .ok (.text s.trim)
  | "UPPER", [a] => do
      let s := (← a.asScalar).toText
      .ok (.text s.toUpper)
  | "LOWER", [a] => do
      let s := (← a.asScalar).toText
      .ok (.text s.toLower)
  | "PROPER", [a] => do
      let s := (← a.asScalar).toText
      .ok (.text (properCase s))
  | "CONCAT", _ => do
      let ss ← scalarsOf args
      .ok (.text (ss.foldl (fun acc v => acc ++ v.toText) ""))
  | "TEXT", [a, _] => do
      let v ← a.asScalar
      .ok (.text v.toText)
  | "VALUE", [a] => do
      let s := (← a.asScalar).toText
      match parseNumber s with
      | some q => .ok (.num q)
      | none => .error ("VALUE: cannot convert to number: " ++ s)
  | "SUBSTITUTE", [a, o, nw] => do
      let s := (← a.asScalar).toText
      let os := (← o.asScalar).toText
      let ns := (← nw.asScalar).toText
      .ok (.text (substituteText s os ns 0))
  | "SUBSTITUTE", [a, o, nw, k] => do
      let s := (← a.asScalar).toText
      let os := (← o.asScalar).toText
      let ns := (← nw.asScalar).toText
      let kq ← (← k.asScalar).toNumE
      if kq < 1 then .error "SUBSTITUTE: occurrence must be at least 1"
      else .ok (.text (substituteText s os ns (⌊kq⌋).toNat))
  | "FIND", [sub, a] => do
      let subs := (← sub.asScalar).toText
      let s := (← a.asScalar).toText
      match findSub1 subs.data s.data 1 with
      | some p => .ok (.num (p : ℚ))
      | none => .error ("FIND: text not found: " ++ subs)
  | "FIND", [sub, a, st] => do
      let subs := (← sub.asScalar).toText
      let s := (← a.asScalar).toText
      let stq ← (← st.asScalar).toNumE
      if stq < 1 then .error "FIND: start position must be at least 1"
      else
        match findSub1 subs.data s.data (⌊stq⌋).toNat with
        | some p => .ok (.num (p : ℚ))
        | none => .error ("FIND: text not found: " ++ subs)
  | "SEARCH", [sub, a] => do
      let subs := (← sub.asScalar).toText
      let s := (← a.asScalar).toText
      match findSub1 subs.toLower.data s.toLower.data 1 with
      | some p => .ok (.num (p : ℚ))
      | none => .error ("SEARCH: text not found: " ++ subs)
  | "SEARCH", [sub, a, st] => do
      let subs := (← sub.asScalar).toText
      let s := (← a.asScalar).toText
      let stq ← (← st.asScalar).toNumE
      if stq < 1 then .error "SEARCH: start position must be at least 1"
      else
        match findSub1 subs.toLower.data s.toLower.data (⌊stq⌋).toNat with
        | some p => .ok (.num (p : ℚ))
        | none => .error ("SEARCH: text not found: " ++ subs)
  | _, _ => .error ("unknown function or bad arguments: " ++ fn)

/-! ### Binary operator semantics (spec §4.2) -/

/-- Typed comparison: numeric against numeric, text against text, boolean
against boolean; values of different kinds are simply unequal. -/
def cellEquality (a b : CellValue) : Bool := valueEq a b

def cellCompare (a b : CellValue) (num : ℚ → ℚ → Bool) (txt : String → String → Bool) :
    Except String Bool :=
  match a, b with
  | .num x, .num y => .ok (num x y)
  | .text x, .text y => .ok (txt x y)
  | _, _ => .error "type mismatch: comparison needs two numbers or two texts"

/-- Modelled from the spec: `+ - * /` need numeric coercion of both sides,
comparisons are typed, `&` concatenates after string coercion (spec §4.2).
`==`/`!=` are accepted as aliases and normalised by the generator
(spec §4.3). -/
def applyBinop (op : String) (a b : Value) : Except String CellValue := do
  let op := if op == "==" then "=" else if op == "!=" then "<>" else op
  let x ← a.asScalar
  let y ← b.asScalar
  match op with
  | "+" => do .ok (.num ((← x.toNumE) + (← y.toNumE)))
  | "-" => do .ok (.num ((← x.toNumE) - (← y.toNumE)))
  | "*" => do .ok (.num ((← x.toNumE) * (← y.toNumE)))
  | "/" => do
      let xn ← x.toNumE
      let yn ← y.toNumE
      if yn == 0 then .error "division by zero" else .ok (.num (xn / yn))
  | ">" => (cellCompare x y (fun p q => p > q) (fun p q => q < p)).map CellValue.boolean
  | "<" => (cellCompare x y (fun p q => p < q) (fun p q => p < q)).map CellValue.boolean
  | ">=" => (cellCompare x y (fun p q => p ≥ q) (fun p q => !(p < q))).map CellValue.boolean
  | "<=" => (cellCompare x y (fun p q => p ≤ q) (fun p q => !(q < p))).map CellValue.boolean
  | "=" => .ok (.boolean (cellEquality x y))
  | "<>" => .ok (.boolean (!cellEquality x y))
  | "&" => .ok (.text (x.toText ++ y.toText))
  | _ => .error ("unknown operator: " ++ op)

/-! ### The Expression Evaluator (spec §4.2) -/

/-- Evaluation environment: the registry, the current row context and the
variable context (spec §4.2: `evaluate(expr, row_context, variable_context,
registry)`). -/
structure EvalEnv where
  reg : FileRegistry
  rowCtx : List (String × CellValue)
  vars : List (String × CellValue)

mutual
/-- Modelled from the spec: recursive evaluation of the expression tree;
arguments left-to-right, runtime failures as typed errors, never defaults
(spec §4.2).  `IFERROR`/`ISERROR`/`ISNA` observe argument-evaluation
failure and are therefore handled before argument evaluation. -/
def evalExpr (env : EvalEnv) : Expr → Except String Value
  | .lit v => .ok (.scalar v)
  | .col c =>
      match lookupAssoc env.rowCtx c with
      | some v => .ok (.scalar v)
      | none => .error ("unknown column: " ++ c)
  | .ref f s c =>
      match env.reg.getTable f s with
      | none => .error ("table not found: " ++ f ++ "." ++ s)
      | some t =>
          match t.getColumn c with
          | some vs => .ok (.column vs)
          | none => .error ("column not found: " ++ c)
  | .evar x =>
      match lookupAssoc env.vars x with
      | some v => .ok (.scalar v)
      | none => .error ("undefined variable: " ++ x)
  | .call fn args =>
      if fn == "IFERROR" then
        match args with
        | .cons a (.cons b .nil) =>
            match evalExpr env a with
            | .ok v => .ok v
            | .error _ => evalExpr env b
        | _ => .error "IFERROR expects 2 arguments"
      else if fn == "ISERROR" then
        match args with
        | .cons a .nil =>
            match evalExpr env a with
            | .ok _ => .ok (.scalar (.boolean false))
            | .error _ => .ok (.scalar (.boolean true))
        | _ => .error "ISERROR expects 1 argument"
      else if fn == "ISNA" then
        match args with
        | .cons a .nil =>
            match evalExpr env a with
            | .ok (.scalar v) => .ok (.scalar (.boolean v.isBlank))
            | .ok (.column _) => .error "type mismatch: ISNA expects a scalar"
            | .error _ => .ok (.scalar (.boolean true))
        | _ => .error "ISNA expects 1 argument"
      else do
        let vs ← evalArgs env args
        (applyFunc env.reg fn vs).map Value.scalar
  | .binop op l r => do
      let a ← evalExpr env l
      let b ← evalExpr env r
      (applyBinop op a b).map Value.scalar
def evalArgs (env : EvalEnv) : ExprList → Except String (List Value)
  | .nil => .ok []
  | .cons e es => do
      let v ← evalExpr env e
      let vs ← evalArgs env es
      .ok (v :: vs)
end

/-- The row context for data row `r` (0-based) of a table: each column name
bound to its cell in that row. -/
def rowCtxOf (t : Table) (r : Nat) : List (String × CellValue) :=
  t.cols.map (fun p => (p.1, p.2.getD r .blank))

/-! ### Excel column letters (bijective base 26) -/

/-- Digits (most significant first, each < 26) of `n ≥ 1` in bijective
base 26; fuel-driven so that kernel reduction stays structural. -/
def toDigitsAux : Nat → Nat → List Nat
  | 0, _ => []
  | _ + 1, 0 => []
  | fuel + 1, n + 1 => toDigitsAux fuel (n / 26) ++ [n % 26]

def toDigits (n : Nat) : List Nat := toDigitsAux n n

def fromDigits (l : List Nat) : Nat := l.foldl (fun a d => a * 26 + d + 1) 0

def colDigitChar (d : Nat) : Char := Char.ofNat (65 + d)

/-- The spreadsheet column name of 0-based column index `i`
(`0 → "A"`, `25 → "Z"`, `26 → "AA"`). -/
def excelColName (i : Nat) : String :=
  String.mk ((toDigits (i + 1)).map colDigitChar)

def isColLetter (c : Char) : Bool := 'A' ≤ c && c ≤ 'Z'

/-- Inverse of `excelColName`: the 0-based column index denoted by a
spreadsheet column name. -/
def letterToIndex (s : String) : Option Nat :=
  if s.data.all isColLetter && !s.data.isEmpty then
    some (fromDigits (s.data.map (fun c => c.toNat - 65)) - 1)
  else none

/-! ### The Formula Generator (spec §4.3) -/

/-- A row coordinate in a generated formula: either the `{row}` template
placeholder (row-level operations emit one template for every data row,
spec §4.3) or a concrete spreadsheet row number. -/
inductive RowSpec where
  | placeholder
  | rownum (n : Nat)
deriving DecidableEq, Repr

mutual
/-- The abstract syntax of a generated spreadsheet formula: literals, cell
references `<sheet>!<letter><row>`, whole-column ranges
`<sheet>!<letter>:<letter>`, function calls and binary operations
(spec §4.3 translation rules). -/
inductive Formula where
  | flit (v : CellValue)
  | cell (sheet colLetter : String) (row : RowSpec)
  | range (sheet colLetter : String)
  | fcall (fn : String) (args : FormulaList)
  | fbin (op : String) (l r : Formula)
deriving Repr
inductive FormulaList where
  | nil
  | cons (f : Formula) (fs : FormulaList)
deriving Repr
end

/-- Operator normalisation performed by the generator: `==`→`=`,
`!=`→`<>`; everything else maps one-to-one (spec §4.3). -/
def opToExcel (op : String) : String :=
  if op == "==" then "=" else if op == "!=" then "<>" else op

/-- Generation context: the registry, the operation's target file/sheet
(for `col` references) and the result-cell assignment for variables
(compute formulas reference specific result cells, spec §4.3). -/
structure GenCtx where
  reg : FileRegistry
  fid : String
  sheet : String
  varCell : String → Option (String × String × Nat)

mutual
/-- Modelled from the spec: the Formula Generator structurally mirrors the
Evaluator but emits formula text, using the per-table column-name→letter
mapping; an untranslatable node is a generator-internal error, never a
best-effort string (spec §4.3). -/
def genExpr (g : GenCtx) : Expr → Except String Formula
  | .lit v => .ok (.flit v)
  | .col c =>
      match g.reg.getTable g.fid g.sheet with
      | none => .error ("generator: table not found: " ++ g.fid ++ "." ++ g.sheet)
      | some t =>
          match t.colIndex c with
          | some i => .ok (.cell g.sheet (excelColName i) .placeholder)
          | none => .error ("generator: unknown column: " ++ c)
  | .ref f s c =>
      match g.reg.getTable f s with
      | none => .error ("generator: table not found: " ++ f ++ "." ++ s)
      | some t =>
          match t.colIndex c with
          | some i => .ok (.range s (excelColName i))
          | none => .error ("generator: unknown column: " ++ c)
  | .evar x =>
      match g.varCell x with
      | some a => .ok (.cell a.1 a.2.1 (.rownum a.2.2))
      | none => .error ("generator: no result cell for variable: " ++ x)
  | .call fn args => do
      let fs ← genArgs g args
      .ok (.fcall fn fs)
  | .binop op l r => do
      let fl ← genExpr g l
      let fr ← genExpr g r
      .ok (.fbin (opToExcel op) fl fr)
def genArgs (g : GenCtx) : ExprList → Except String FormulaList
  | .nil => .ok .nil
  | .cons e es => do
      let f ← genExpr g e
      let fs ← genArgs g es
      .ok (.cons f fs)
end

mutual
/-- Resolve the `{row}` placeholder of a template to the concrete
spreadsheet row `rn`. -/
def Formula.inst (rn : Nat) : Formula → Formula
  | .flit v => .flit v
  | .cell s c .placeholder => .cell s c (.rownum rn)
  | .cell s c (.rownum m) => .cell s c (.rownum m)
  | .range s c => .range s c
  | .fcall fn args => .fcall fn (FormulaList.instL rn args)
  | .fbin op l r => .fbin op (l.inst rn) (r.inst rn)
def FormulaList.instL (rn : Nat) : FormulaList → FormulaList
  | .nil => .nil
  | .cons f fs => .cons (f.inst rn) (FormulaList.instL rn fs)
end

def quoteText (s : String) : String := "\"" ++ s ++ "\""

mutual
/-- The formula text of a generated formula (the `{row}` placeholder is
rendered literally in templates). -/
def Formula.render : Formula → String
  | .flit (.num q) => ratToText q
  | .flit (.text s) => quoteText s
  | .flit (.boolean b) => if b then "TRUE" else "FALSE"
  | .flit .blank => quoteText ""
  | .cell s c .placeholder => s ++ "!" ++ c ++ "\x7brow\x7d"
  | .cell s c (.rownum n) => s ++ "!" ++ c ++ toString n
  | .range s c => s ++ "!" ++ c ++ ":" ++ c
  | .fcall fn args => fn ++ "(" ++ FormulaList.renderL args ++ ")"
  | .fbin op l r => "(" ++ l.render ++ op ++ r.render ++ ")"
def FormulaList.renderL : FormulaList → String
  | .nil => ""
  | .cons f .nil => f.render
  | .cons f fs => f.render ++ "," ++ FormulaList.renderL fs
end

/-! ### Spreadsheet semantics

Second, spec-side model for the refinement claim: how a spreadsheet engine
evaluates the generated formula over the same source data.  A workbook
holds one sheet per loaded table; row 1 is the header, data rows start at
row 2 (spec §4.3 rule 4).  Whitelisted functions behave exactly as their
engine counterparts — the system's core principle is that every function
corresponds one-to-one to its Excel function (spec §4.3, design doc §1.2) —
so function application is shared with the engine (`applyFunc`), while
reference resolution goes through cell/range addresses. -/

structure Workbook where
  sheets : List (String × Table)
deriving Repr

/-- The single output workbook for the loaded data: all sheets of all
files, addressed by sheet name. -/
def workbookOf (reg : FileRegistry) : Workbook := ⟨reg.allSheets⟩

def Workbook.findSheet (wb : Workbook) (s : String) : Option Table :=
  lookupAssoc wb.sheets s

/-- The value of cell `<sheet>!<colLetter><rowNum>`: row 1 holds the column
header, data row `r` (0-based) lives at spreadsheet row `r + 2`; an
unoccupied cell below a column reads as blank. -/
def Workbook.cellAt (wb : Workbook) (sheet colLetter : String) (rowNum : Nat) :
    Except String CellValue :=
  match wb.findSheet sheet with
  | none => .error ("sheet not found: " ++ sheet)
  | some t =>
      match letterToIndex colLetter with
      | none => .error ("bad column letter: " ++ colLetter)
      | some i =>
          match t.cols.get? i with
          | none => .error ("no column at letter: " ++ colLetter)
          | some p =>
              if rowNum == 0 then .error "row numbers start at 1"
              else if rowNum == 1 then .ok (.text p.1)
              else .ok (p.2.getD (rowNum - 2) .blank)

/-- The data cells of the whole-column range `<sheet>!<c>:<c>`. -/
def Workbook.rangeAt (wb : Workbook) (sheet colLetter : String) :
    Except String (List CellValue) :=
  match wb.findSheet sheet with
  | none => .error ("sheet not found: " ++ sheet)
  | some t =>
      match letterToIndex colLetter with
      | none => .error ("bad column letter: " ++ colLetter)
      | some i =>
          match t.cols.get? i with
          | none => .error ("no column at letter: " ++ colLetter)
          | some p => .ok p.2

/-- Spreadsheet binary operators: the Excel token set (no `==`/`!=`
aliases), with the shared typed semantics. -/
def excelApplyBin (op : String) (a b : Value) : Except String CellValue :=
  if op == "==" || op == "!=" then .error ("not a spreadsheet operator: " ++ op)
  else applyBinop op a b

mutual
/-- Spreadsheet evaluation of a (placeholder-free) formula against the
workbook.  `IFERROR`/`ISERROR`/`ISNA` observe evaluation errors of their
argument, exactly as in the engine. -/
def excelEval (reg : FileRegistry) (wb : Workbook) : Formula → Except String Value
  | .flit v => .ok (.scalar v)
  | .cell _ _ .placeholder => .error "unresolved \x7brow\x7d placeholder"
  | .cell s c (.rownum n) => (wb.cellAt s c n).map Value.scalar
  | .range s c => (wb.rangeAt s c).map Value.column
  | .fcall fn args =>
      if fn == "IFERROR" then
        match args with
        | .cons a (.cons b .nil) =>
            match excelEval reg wb a with
            | .ok v => .ok v
            | .error _ => excelEval reg wb b
        | _ => .error "IFERROR expects 2 arguments"
      else if fn == "ISERROR" then
        match args with
        | .cons a .nil =>
            match excelEval reg wb a with
            | .ok _ => .ok (.scalar (.boolean false))
            | .error _ => .ok (.scalar (.boolean true))
        | _ => .error "ISERROR expects 1 argument"
      else if fn == "ISNA" then
        match args with
        | .cons a .nil =>
            match excelEval reg wb a with
            | .ok (.scalar v) => .ok (.scalar (.boolean v.isBlank))
            | .ok (.column _) => .error "type mismatch: ISNA expects a scalar"
            | .error _ => .ok (.scalar (.boolean true))
        | _ => .error "ISNA expects 1 argument"
      else do
        let vs ← excelEvalArgs reg wb args
        (applyFunc reg fn vs).map Value.scalar
  | .fbin op l r => do
      let a ← excelEval reg wb l
      let b ← excelEval reg wb r
      (excelApplyBin op a b).map Value.scalar
def excelEvalArgs (reg : FileRegistry) (wb : Workbook) :
    FormulaList → Except String (List Value)
  | .nil => .ok []
  | .cons f fs => do
      let v ← excelEval reg wb f
      let vs ← excelEvalArgs reg wb fs
      .ok (v :: vs)
end

/-! ### Column-letter round trip -/

theorem toDigitsAux_fuel (f1 : Nat) : ∀ f2 n : Nat, n ≤ f1 → n ≤ f2 →
    toDigitsAux f1 n = toDigitsAux f2 n := by
  induction f1 with
  | zero =>
      intro f2 n h1 _
      interval_cases n
      cases f2 <;> rfl
  | succ f1 ih =>
      intro f2 n h1 h2
      match n, f2 with
      | 0, 0 => rfl
      | 0, _ + 1 => rfl
      | m + 1, f2 + 1 =>
          show toDigitsAux f1 (m / 26) ++ [m % 26] = toDigitsAux f2 (m / 26) ++ [m % 26]
          have hle : m / 26 ≤ m := Nat.div_le_self m 26
          rw [ih f2 (m / 26) (by omega) (by omega)]

theorem toDigits_succ (n : Nat) : toDigits (n + 1) = toDigits (n / 26) ++ [n % 26] := by
  show toDigitsAux (n + 1) (n + 1) = toDigits (n / 26) ++ [n % 26]
  have h1 : toDigitsAux (n + 1) (n + 1) = toDigitsAux n (n / 26) ++ [n % 26] := rfl
  rw [h1]
  have hle : n / 26 ≤ n := Nat.div_le_self n 26
  unfold toDigits
  rw [toDigitsAux_fuel n (n / 26) (n / 26) hle (le_refl _)]

theorem fromDigits_append (l : List Nat) (d : Nat) :
    fromDigits (l ++ [d]) = fromDigits l * 26 + d + 1 := by
  simp [fromDigits, List.foldl_append]

theorem fromDigits_toDigits (n : Nat) : fromDigits (toDigits n) = n := by
  induction n using Nat.strong_induction_on with
  | _ n ih =>
      match n with
      | 0 => rfl
      | m + 1 =>
          rw [toDigits_succ, fromDigits_append,
            ih (m / 26) (Nat.lt_succ_of_le (Nat.div_le_self m 26))]
          have := Nat.div_add_mod m 26
          omega

theorem toDigitsAux_lt (f : Nat) : ∀ n : Nat, ∀ d ∈ toDigitsAux f n, d < 26 := by
  induction f with
  | zero => intro n d hd; simp [toDigitsAux] at hd
  | succ f ih =>
      intro n d hd
      match n with
      | 0 => simp [toDigitsAux] at hd
      | m + 1 =>
          have : toDigitsAux (f + 1) (m + 1) = toDigitsAux f (m / 26) ++ [m % 26] := rfl
          rw [this] at hd
          rcases List.mem_append.mp hd with h | h
          · exact ih _ d h
          · simp at h; omega

theorem colDigitChar_toNat (d : Nat) (h : d < 26) : (colDigitChar d).toNat = 65 + d := by
  interval_cases d <;> decide

theorem isColLetter_colDigitChar (d : Nat) (h : d < 26) :
    isColLetter (colDigitChar d) = true := by
  interval_cases d <;> decide

theorem toDigits_ne_nil (i : Nat) : toDigits (i + 1) ≠ [] := by
  rw [toDigits_succ]; simp

theorem letterToIndex_excelColName (i : Nat) : letterToIndex (excelColName i) = some i := by
  have hdata : (excelColName i).data = (toDigits (i + 1)).map colDigitChar := rfl
  have hall : ((toDigits (i + 1)).map colDigitChar).all isColLetter = true := by
    rw [List.all_eq_true]
    intro c hc
    rcases List.mem_map.mp hc with ⟨d, hd, rfl⟩
    exact isColLetter_colDigitChar d (toDigitsAux_lt _ _ d hd)
  have hne : ((toDigits (i + 1)).map colDigitChar).isEmpty = false := by
    rcases h : toDigits (i + 1) with _ | ⟨d, l⟩
    · exact absurd h (toDigits_ne_nil i)
    · rfl
  have hback : ((toDigits (i + 1)).map colDigitChar).map (fun c => c.toNat - 65)
      = toDigits (i + 1) := by
    rw [List.map_map]
    have hpt : ∀ d ∈ toDigits (i + 1),
        ((fun c => c.toNat - 65) ∘ colDigitChar) d = id d := by
      intro d hd
      have hlt := toDigitsAux_lt _ _ d hd
      simp [Function.comp, colDigitChar_toNat d hlt]
    rw [List.map_congr_left hpt, List.map_id]
  unfold letterToIndex
  rw [hdata, hall, hne]
  simp [hback, fromDigits_toDigits]

/-! ### Association-list and first-match lemmas -/

theorem lookupAssoc_mem {α : Type} {l : List (String × α)} {k : String} {v : α}
    (h : lookupAssoc l k = some v) : (k, v) ∈ l := by
  induction l with
  | nil => simp [lookupAssoc] at h
  | cons p rest ih =>
      by_cases hk : p.1 == k
      · have heq : lookupAssoc (p :: rest) k = some p.2 := by
          simp [lookupAssoc, List.find?, hk]
        rw [heq] at h
        cases h
        have hpk : p.1 = k := by simpa using hk
        exact List.mem_cons.mpr (Or.inl (by cases p; simp_all))
      · have heq : lookupAssoc (p :: rest) k = lookupAssoc rest k := by
          simp [lookupAssoc, List.find?, hk]
        rw [heq] at h
        exact List.mem_cons_of_mem _ (ih h)

theorem lookupAssoc_nodup {α : Type} {l : List (String × α)} {k : String} {v : α}
    (hnd : (l.map Prod.fst).Nodup) (hm : (k, v) ∈ l) : lookupAssoc l k = some v := by
  induction l with
  | nil => simp at hm
  | cons p rest ih =>
      rcases List.mem_cons.mp hm with h | h
      · subst h
        simp [lookupAssoc, List.find?]
      · have hnd' : (rest.map Prod.fst).Nodup := (List.nodup_cons.mp hnd).2
        have hne : p.1 ≠ k := by
          intro he
          have : k ∈ rest.map Prod.fst := List.mem_map.mpr ⟨(k, v), h, rfl⟩
          have := (List.nodup_cons.mp hnd).1
          rw [he] at this
          exact this ‹k ∈ rest.map Prod.fst›
        have hbe : (p.1 == k) = false := by
          simpa using hne
        simp [lookupAssoc, List.find?, hbe] at ih ⊢
        exact ih hnd' h

/-- The registry-to-workbook sheet resolution: with globally unique sheet
names, the workbook finds exactly the table the registry addresses by
(file, sheet). -/
theorem findSheet_workbookOf {reg : FileRegistry} (hnd : reg.noDupSheetNames = true)
    {fid sheet : String} {t : Table} (ht : reg.getTable fid sheet = some t) :
    (workbookOf reg).findSheet sheet = some t := by
  have hnd' : ((reg.allSheets).map Prod.fst).Nodup := by
    have := hnd
    unfold FileRegistry.noDupSheetNames at this
    simpa using this
  unfold FileRegistry.getTable at ht
  rcases hf : lookupAssoc reg.files fid with _ | f
  · rw [hf] at ht; cases ht
  · rw [hf] at ht
    have hmem : (sheet, t) ∈ reg.allSheets := by
      have h1 : (fid, f) ∈ reg.files := lookupAssoc_mem hf
      have h2 : (sheet, t) ∈ f.sheets := lookupAssoc_mem ht
      unfold FileRegistry.allSheets
      exact List.mem_flatMap.mpr ⟨(fid, f), h1, h2⟩
    exact lookupAssoc_nodup hnd' hmem

theorem findIdx?_get {α : Type} {l : List α} {p : α → Bool} {i : Nat}
    (h : l.findIdx? p = some i) :
    ∃ x, l.get? i = some x ∧ p x = true ∧ l.find? p = some x := by
  induction l generalizing i with
  | nil => simp at h
  | cons a rest ih =>
      by_cases hp : p a
      · have : (a :: rest).findIdx? p = some 0 := by simp [List.findIdx?_cons, hp]
        rw [this] at h
        cases h
        exact ⟨a, rfl, hp, by simp [List.find?, hp]⟩
      · have hpf : p a = false := by simpa using hp
        have hstep : (a :: rest).findIdx? p = (rest.findIdx? p).map (· + 1) := by
          simp [List.findIdx?_cons, hpf]
        rw [hstep] at h
        rcases hr : rest.findIdx? p with _ | j
        · rw [hr] at h; cases h
        · rw [hr] at h
          cases h
          rcases ih hr with ⟨x, hg, hx, hf⟩
          exact ⟨x, by simpa using hg, hx, by simp [List.find?, hpf, hf]⟩

/-- Row-context lookup is the first matching column's cell at the row. -/
theorem rowCtx_lookup (t : Table) (r : Nat) (c : String) :
    lookupAssoc (rowCtxOf t r) c =
      (t.cols.find? (fun p => p.1 == c)).map (fun p => p.2.getD r .blank) := by
  rcases t with ⟨nm, cols⟩
  show lookupAssoc (cols.map (fun p => (p.1, p.2.getD r .blank))) c = _
  induction cols with
  | nil => rfl
  | cons p rest ih =>
      by_cases hk : p.1 == c
      · simp [lookupAssoc, List.find?_cons, hk]
      · simp only [lookupAssoc, List.map_cons, List.find?_cons, hk] at ih ⊢
        simpa using ih

/-! ### Evaluator/Generator agreement (the spec's core invariant, §4.3) -/

theorem excelApplyBin_opToExcel (op : String) (a b : Value) :
    excelApplyBin (opToExcel op) a b = applyBinop op a b := by
  by_cases h1 : op == "=="
  · have : op = "==" := by simpa using h1
    subst this
    rfl
  · by_cases h2 : op == "!="
    · have : op = "!=" := by simpa using h2
      subst this
      rfl
    · have hb1 : (op == "==") = false := by simpa using h1
      have hb2 : (op == "!=") = false := by simpa using h2
      unfold opToExcel excelApplyBin
      rw [hb1, hb2]
      simp only [Bool.false_eq_true, if_false, Bool.or_self]
      unfold applyBinop
      rw [hb1, hb2]
      simp

theorem evalExpr_call_general (env : EvalEnv) (fn : String) (args : ExprList)
    (h1 : (fn == "IFERROR") = false) (h2 : (fn == "ISERROR") = false)
    (h3 : (fn == "ISNA") = false) :
    evalExpr env (.call fn args) =
      (do
      let vs ← evalArgs env args
      (applyFunc env.reg fn vs).map Value.scalar) := by
  cases args with
  | nil =>
      rw [evalExpr]
      all_goals try (intro a' b' h; exact absurd h (by simp))
      all_goals try (intro a' h; exact absurd h (by simp))
      rw [h1, h2, h3]
      simp
  | cons a as =>
      cases as with
      | nil =>
          rw [evalExpr]
          all_goals try (intro a' b' h; exact absurd h (by simp))
          all_goals try (intro a' h; exact absurd h (by simp))
          rw [h1, h2, h3]
          simp
      | cons b bs =>
          cases bs with
          | nil =>
              rw [evalExpr]
              all_goals try (intro a' b' h; exact absurd h (by simp))
              all_goals try (intro a' h; exact absurd h (by simp))
              rw [h1, h2, h3]
              simp
          | cons c cs =>
              rw [evalExpr]
              all_goals try (intro a' b' h; exact absurd h (by simp))
              all_goals try (intro a' h; exact absurd h (by simp))
              rw [h1, h2, h3]
              simp

theorem excelEval_fcall_general (reg : FileRegistry) (wb : Workbook) (fn : String)
    (args : FormulaList)
    (h1 : (fn == "IFERROR") = false) (h2 : (fn == "ISERROR") = false)
    (h3 : (fn == "ISNA") = false) :
    excelEval reg wb (.fcall fn args) =
      (do
      let vs ← excelEvalArgs reg wb args
      (applyFunc reg fn vs).map Value.scalar) := by
  cases args with
  | nil =>
      rw [excelEval]
      all_goals try (intro a' b' h; exact absurd h (by simp))
      all_goals try (intro a' h; exact absurd h (by simp))
      rw [h1, h2, h3]
      simp
  | cons a as =>
      cases as with
      | nil =>
          rw [excelEval]
          all_goals try (intro a' b' h; exact absurd h (by simp))
          all_goals try (intro a' h; exact absurd h (by simp))
          rw [h1, h2, h3]
          simp
      | cons b bs =>
          cases bs with
          | nil =>
              rw [excelEval]
              all_goals try (intro a' b' h; exact absurd h (by simp))
              all_goals try (intro a' h; exact absurd h (by simp))
              rw [h1, h2, h3]
              simp
          | cons c cs =>
              rw [excelEval]
              all_goals try (intro a' b' h; exact absurd h (by simp))
              all_goals try (intro a' h; exact absurd h (by simp))
              rw [h1, h2, h3]
              simp

mutual
theorem genAgreeE (reg : FileRegistry) (hnd : reg.noDupSheetNames = true)
    (fid sheet : String) (t : Table) (ht : reg.getTable fid sheet = some t)
    (r : Nat) (vars : List (String × CellValue))
    (varCell : String → Option (String × String × Nat))
    (hvc : ∀ x a, varCell x = some a → ∃ v, lookupAssoc vars x = some v ∧
      (workbookOf reg).cellAt a.1 a.2.1 a.2.2 = .ok v) :
    (e : Expr) → ∀ f, genExpr ⟨reg, fid, sheet, varCell⟩ e = .ok f →
      excelEval reg (workbookOf reg) (f.inst (r + 2)) =
        evalExpr ⟨reg, rowCtxOf t r, vars⟩ e
  | .lit v => by
      intro f hf
      simp only [genExpr] at hf
      cases hf
      rfl
  | .col c => by
      intro f hf
      simp only [genExpr] at hf
      rw [ht] at hf
      have hf2 : (match t.colIndex c with
        | some i => Except.ok (Formula.cell sheet (excelColName i) RowSpec.placeholder)
        | none => Except.error ("generator: unknown column: " ++ c)) = Except.ok f := hf
      rcases hci : Table.colIndex t c with _ | i
      · rw [hci] at hf2; cases hf2
      · rw [hci] at hf2
        cases hf2
        rcases findIdx?_get hci with ⟨p, hget, hpc, hfind⟩
        show (Workbook.cellAt (workbookOf reg) sheet (excelColName i) (r + 2)).map
          Value.scalar = _
        unfold Workbook.cellAt
        rw [findSheet_workbookOf hnd ht, letterToIndex_excelColName]
        show Except.map Value.scalar (match t.cols.get? i with
          | none => Except.error ("no column at letter: " ++ excelColName i)
          | some p =>
            if (r + 2 == 0) = true then Except.error "row numbers start at 1"
            else if (r + 2 == 1) = true then Except.ok (CellValue.text p.1)
            else Except.ok (p.2.getD (r + 2 - 2) CellValue.blank)) = _
        rw [hget]
        have h0 : (r + 2 == 0) = false := by simp
        have h1 : (r + 2 == 1) = false := by simp
        rw [h0, h1]
        simp only [Bool.false_eq_true, if_false]
        show Except.ok (Value.scalar (p.2.getD (r + 2 - 2) .blank)) = _
        have hr2 : r + 2 - 2 = r := by omega
        rw [hr2]
        show _ = evalExpr ⟨reg, rowCtxOf t r, vars⟩ (.col c)
        unfold evalExpr
        rw [rowCtx_lookup, hfind]
        rfl
  | .ref fr sr cr => by
      intro f hf
      simp only [genExpr] at hf
      rcases htr : reg.getTable fr sr with _ | tr
      · rw [htr] at hf; cases hf
      · rw [htr] at hf
        have hf2 : (match tr.colIndex cr with
          | some i => Except.ok (Formula.range sr (excelColName i))
          | none => Except.error ("generator: unknown column: " ++ cr)) = Except.ok f := hf
        rcases hci : Table.colIndex tr cr with _ | i
        · rw [hci] at hf2; cases hf2
        · rw [hci] at hf2
          cases hf2
          rcases findIdx?_get hci with ⟨p, hget, hpc, hfind⟩
          show (Workbook.rangeAt (workbookOf reg) sr (excelColName i)).map
            Value.column = _
          unfold Workbook.rangeAt
          rw [findSheet_workbookOf hnd htr, letterToIndex_excelColName]
          show Except.map Value.column (match tr.cols.get? i with
            | none => Except.error ("no column at letter: " ++ excelColName i)
            | some p => Except.ok p.2) = _
          rw [hget]
          show Except.ok (Value.column p.2) = _
          unfold evalExpr
          rw [htr]
          show _ = (match Option.map (fun p => p.2)
              (List.find? (fun p => p.1 == cr) tr.cols) with
            | some vs => Except.ok (Value.column vs)
            | none => Except.error ("column not found: " ++ cr))
          rw [hfind]
          rfl
  | .evar x => by
      intro f hf
      simp only [genExpr] at hf
      rcases hx : varCell x with _ | a
      · rw [hx] at hf; cases hf
      · rw [hx] at hf
        cases hf
        rcases hvc x a hx with ⟨v, hv1, hv2⟩
        show (Workbook.cellAt (workbookOf reg) a.1 a.2.1 a.2.2).map Value.scalar = _
        rw [hv2]
        unfold evalExpr
        rw [hv1]
        rfl
  | .call fn args => by
      intro f hf
      rcases hga : genArgs ⟨reg, fid, sheet, varCell⟩ args with e' | fs
      · rw [genExpr, hga] at hf
        exact Except.noConfusion hf
      · rw [genExpr, hga] at hf
        have hf' : Except.ok (Formula.fcall fn fs) = Except.ok f := hf
        cases hf'
        by_cases hIF : fn == "IFERROR"
        · have hfn : fn = "IFERROR" := by simpa using hIF
          subst hfn
          cases args with
          | nil =>
              have hfs : Except.ok FormulaList.nil =
                  (Except.ok fs : Except String FormulaList) := hga
              cases hfs
              rfl
          | cons a as =>
              rcases hg1 : genExpr ⟨reg, fid, sheet, varCell⟩ a with _ | fa
              · rw [genArgs, hg1] at hga
                exact Except.noConfusion hga
              · cases as with
                | nil =>
                    rw [genArgs, hg1] at hga
                    have hfs : Except.ok (FormulaList.cons fa .nil) =
                        (Except.ok fs : Except String FormulaList) := hga
                    cases hfs
                    rfl
                | cons b bs =>
                    rcases hg2 : genExpr ⟨reg, fid, sheet, varCell⟩ b with _ | fb
                    · rw [genArgs, hg1, genArgs, hg2] at hga
                      exact Except.noConfusion hga
                    · cases bs with
                      | nil =>
                          rw [genArgs, hg1, genArgs, hg2] at hga
                          have hfs : Except.ok (FormulaList.cons fa (.cons fb .nil)) =
                              (Except.ok fs : Except String FormulaList) := hga
                          cases hfs
                          have iha := genAgreeE reg hnd fid sheet t ht r vars varCell hvc a fa hg1
                          have ihb := genAgreeE reg hnd fid sheet t ht r vars varCell hvc b fb hg2
                          show (match excelEval reg (workbookOf reg) (fa.inst (r + 2)) with
                            | .ok v => Except.ok v
                            | .error _ => excelEval reg (workbookOf reg) (fb.inst (r + 2))) =
                            (match evalExpr ⟨reg, rowCtxOf t r, vars⟩ a with
                            | .ok v => Except.ok v
                            | .error _ => evalExpr ⟨reg, rowCtxOf t r, vars⟩ b)
                          rw [iha, ihb]
                      | cons c cs =>
                          rcases hg3 : genArgs ⟨reg, fid, sheet, varCell⟩ (.cons c cs)
                              with _ | fcs
                          · rw [genArgs, hg1, genArgs, hg2, hg3] at hga
                            exact Except.noConfusion hga
                          · rw [genArgs, hg1, genArgs, hg2, hg3] at hga
                            have hfs : Except.ok (FormulaList.cons fa (.cons fb fcs)) =
                                (Except.ok fs : Except String FormulaList) := hga
                            cases hfs
                            rcases hg4 : genExpr ⟨reg, fid, sheet, varCell⟩ c with _ | fc
                            · rw [genArgs, hg4] at hg3
                              exact Except.noConfusion hg3
                            · rcases hg5 : genArgs ⟨reg, fid, sheet, varCell⟩ cs with _ | fcs'
                              · rw [genArgs, hg4, hg5] at hg3
                                exact Except.noConfusion hg3
                              · rw [genArgs, hg4, hg5] at hg3
                                have hfs' : Except.ok (FormulaList.cons fc fcs') =
                                    (Except.ok fcs : Except String FormulaList) := hg3
                                cases hfs'
                                rfl
        · by_cases hIE : fn == "ISERROR"
          · have hfn : fn = "ISERROR" := by simpa using hIE
            subst hfn
            cases args with
            | nil =>
                have hfs : Except.ok FormulaList.nil =
                    (Except.ok fs : Except String FormulaList) := hga
                cases hfs
                rfl
            | cons a as =>
                rcases hg1 : genExpr ⟨reg, fid, sheet, varCell⟩ a with _ | fa
                · rw [genArgs, hg1] at hga
                  exact Except.noConfusion hga
                · cases as with
                  | nil =>
                      rw [genArgs, hg1] at hga
                      have hfs : Except.ok (FormulaList.cons fa .nil) =
                          (Except.ok fs : Except String FormulaList) := hga
                      cases hfs
                      have iha := genAgreeE reg hnd fid sheet t ht r vars varCell hvc a fa hg1
                      show (match excelEval reg (workbookOf reg) (fa.inst (r + 2)) with
                        | .ok _ => Except.ok (Value.scalar (.boolean false))
                        | .error _ => Except.ok (Value.scalar (.boolean true))) =
                        (match evalExpr ⟨reg, rowCtxOf t r, vars⟩ a with
                        | .ok _ => Except.ok (Value.scalar (.boolean false))
                        | .error _ => Except.ok (Value.scalar (.boolean true)))
                      rw [iha]
                  | cons b bs =>
                      rcases hg2 : genArgs ⟨reg, fid, sheet, varCell⟩ (.cons b bs) with _ | fbs
                      · rw [genArgs, hg1, hg2] at hga
                        exact Except.noConfusion hga
                      · rw [genArgs, hg1, hg2] at hga
                        have hfs : Except.ok (FormulaList.cons fa fbs) =
                            (Except.ok fs : Except String FormulaList) := hga
                        cases hfs
                        rcases hg4 : genExpr ⟨reg, fid, sheet, varCell⟩ b with _ | fb
                        · rw [genArgs, hg4] at hg2
                          exact Except.noConfusion hg2
                        · rcases hg5 : genArgs ⟨reg, fid, sheet, varCell⟩ bs with _ | fbs'
                          · rw [genArgs, hg4, hg5] at hg2
                            exact Except.noConfusion hg2
                          · rw [genArgs, hg4, hg5] at hg2
                            have hfs' : Except.ok (FormulaList.cons fb fbs') =
                                (Except.ok fbs : Except String FormulaList) := hg2
                            cases hfs'
                            cases bs with
                            | nil =>
                                have hn : Except.ok FormulaList.nil =
                                    (Except.ok fbs' : Except String FormulaList) := hg5
                                cases hn
                                rfl
                            | cons c cs =>
                                rcases hg6 : genExpr ⟨reg, fid, sheet, varCell⟩ c with _ | fc
                                · rw [genArgs, hg6] at hg5
                                  exact Except.noConfusion hg5
                                · rcases hg7 : genArgs ⟨reg, fid, sheet, varCell⟩ cs with _ | fcs
                                  · rw [genArgs, hg6, hg7] at hg5
                                    exact Except.noConfusion hg5
                                  · rw [genArgs, hg6, hg7] at hg5
                                    have hn : Except.ok (FormulaList.cons fc fcs) =
                                        (Except.ok fbs' : Except String FormulaList) := hg5
                                    cases hn
                                    rfl
          · by_cases hIN : fn == "ISNA"
            · have hfn : fn = "ISNA" := by simpa using hIN
              subst hfn
              cases args with
              | nil =>
                  have hfs : Except.ok FormulaList.nil =
                      (Except.ok fs : Except String FormulaList) := hga
                  cases hfs
                  rfl
              | cons a as =>
                  rcases hg1 : genExpr ⟨reg, fid, sheet, varCell⟩ a with _ | fa
                  · rw [genArgs, hg1] at hga
                    exact Except.noConfusion hga
                  · cases as with
                    | nil =>
                        rw [genArgs, hg1] at hga
                        have hfs : Except.ok (FormulaList.cons fa .nil) =
                            (Except.ok fs : Except String FormulaList) := hga
                        cases hfs
                        have iha := genAgreeE reg hnd fid sheet t ht r vars varCell hvc a fa hg1
                        show (match excelEval reg (workbookOf reg) (fa.inst (r + 2)) with
                          | .ok (.scalar v) => Except.ok (Value.scalar (.boolean v.isBlank))
                          | .ok (.column _) => Except.error "type mismatch: ISNA expects a scalar"
                          | .error _ => Except.ok (Value.scalar (.boolean true))) =
                          (match evalExpr ⟨reg, rowCtxOf t r, vars⟩ a with
                          | .ok (.scalar v) => Except.ok (Value.scalar (.boolean v.isBlank))
                          | .ok (.column _) => Except.error "type mismatch: ISNA expects a scalar"
                          | .error _ => Except.ok (Value.scalar (.boolean true)))
                        rw [iha]
                    | cons b bs =>
                        rcases hg2 : genArgs ⟨reg, fid, sheet, varCell⟩ (.cons b bs) with _ | fbs
                        · rw [genArgs, hg1, hg2] at hga
                          exact Except.noConfusion hga
                        · rw [genArgs, hg1, hg2] at hga
                          have hfs : Except.ok (FormulaList.cons fa fbs) =
                              (Except.ok fs : Except String FormulaList) := hga
                          cases hfs
                          rcases hg4 : genExpr ⟨reg, fid, sheet, varCell⟩ b with _ | fb
                          · rw [genArgs, hg4] at hg2
                            exact Except.noConfusion hg2
                          · rcases hg5 : genArgs ⟨reg, fid, sheet, varCell⟩ bs with _ | fbs'
                            · rw [genArgs, hg4, hg5] at hg2
                              exact Except.noConfusion hg2
                            · rw [genArgs, hg4, hg5] at hg2
                              have hfs' : Except.ok (FormulaList.cons fb fbs') =
                                  (Except.ok fbs : Except String FormulaList) := hg2
                              cases hfs'
                              cases bs with
                              | nil =>
                                  have hn : Except.ok FormulaList.nil =
                                      (Except.ok fbs' : Except String FormulaList) := hg5
                                  cases hn
                                  rfl
                              | cons c cs =>
                                  rcases hg6 : genExpr ⟨reg, fid, sheet, varCell⟩ c with _ | fc
                                  · rw [genArgs, hg6] at hg5
                                    exact Except.noConfusion hg5
                                  · rcases hg7 : genArgs ⟨reg, fid, sheet, varCell⟩ cs with _ | fcs
                                    · rw [genArgs, hg6, hg7] at hg5
                                      exact Except.noConfusion hg5
                                    · rw [genArgs, hg6, hg7] at hg5
                                      have hn : Except.ok (FormulaList.cons fc fcs) =
                                          (Except.ok fbs' : Except String FormulaList) := hg5
                                      cases hn
                                      rfl
            · have hIFb : (fn == "IFERROR") = false := by simpa using hIF
              have hIEb : (fn == "ISERROR") = false := by simpa using hIE
              have hINb : (fn == "ISNA") = false := by simpa using hIN
              have ihl := genAgreeL reg hnd fid sheet t ht r vars varCell hvc args fs hga
              rw [show (Formula.fcall fn fs).inst (r + 2) =
                Formula.fcall fn (FormulaList.instL (r + 2) fs) from rfl]
              rw [excelEval_fcall_general reg (workbookOf reg) fn _ hIFb hIEb hINb,
                evalExpr_call_general _ fn args hIFb hIEb hINb]
              rw [ihl]
  | .binop op l rr => by
      intro f hf
      rcases hg1 : genExpr ⟨reg, fid, sheet, varCell⟩ l with _ | fl
      · rw [genExpr, hg1] at hf
        exact Except.noConfusion hf
      · rcases hg2 : genExpr ⟨reg, fid, sheet, varCell⟩ rr with _ | frr
        · rw [genExpr, hg1, hg2] at hf
          exact Except.noConfusion hf
        · rw [genExpr, hg1, hg2] at hf
          have hf' : Except.ok (Formula.fbin (opToExcel op) fl frr) = Except.ok f := hf
          cases hf'
          have ihl := genAgreeE reg hnd fid sheet t ht r vars varCell hvc l fl hg1
          have ihr := genAgreeE reg hnd fid sheet t ht r vars varCell hvc rr frr hg2
          show (do
            let a ← excelEval reg (workbookOf reg) (fl.inst (r + 2))
            let b ← excelEval reg (workbookOf reg) (frr.inst (r + 2))
            (excelApplyBin (opToExcel op) a b).map Value.scalar) =
            (do
            let a ← evalExpr ⟨reg, rowCtxOf t r, vars⟩ l
            let b ← evalExpr ⟨reg, rowCtxOf t r, vars⟩ rr
            (applyBinop op a b).map Value.scalar)
          rw [ihl, ihr]
          simp only [excelApplyBin_opToExcel]
theorem genAgreeL (reg : FileRegistry) (hnd : reg.noDupSheetNames = true)
    (fid sheet : String) (t : Table) (ht : reg.getTable fid sheet = some t)
    (r : Nat) (vars : List (String × CellValue))
    (varCell : String → Option (String × String × Nat))
    (hvc : ∀ x a, varCell x = some a → ∃ v, lookupAssoc vars x = some v ∧
      (workbookOf reg).cellAt a.1 a.2.1 a.2.2 = .ok v) :
    (es : ExprList) → ∀ fs, genArgs ⟨reg, fid, sheet, varCell⟩ es = .ok fs →
      excelEvalArgs reg (workbookOf reg) (FormulaList.instL (r + 2) fs) =
        evalArgs ⟨reg, rowCtxOf t r, vars⟩ es
  | .nil => by
      intro fs hfs
      cases hfs
      rfl
  | .cons e es => by
      intro fs hfs
      rcases hg1 : genExpr ⟨reg, fid, sheet, varCell⟩ e with _ | fe
      · rw [genArgs, hg1] at hfs
        exact Except.noConfusion hfs
      · rcases hg2 : genArgs ⟨reg, fid, sheet, varCell⟩ es with _ | fes
        · rw [genArgs, hg1, hg2] at hfs
          exact Except.noConfusion hfs
        · rw [genArgs, hg1, hg2] at hfs
          have hfs' : Except.ok (FormulaList.cons fe fes) =
              (Except.ok fs : Except String FormulaList) := hfs
          cases hfs'
          have ih1 := genAgreeE reg hnd fid sheet t ht r vars varCell hvc e fe hg1
          have ih2 := genAgreeL reg hnd fid sheet t ht r vars varCell hvc es fes hg2
          show excelEvalArgs reg (workbookOf reg)
            (.cons (fe.inst (r + 2)) (FormulaList.instL (r + 2) fes)) = _
          unfold excelEvalArgs evalArgs
          rw [ih1, ih2]
end

/-! ### Function whitelists and the expression validator (spec §4.1) -/

/-- Modelled from the spec: the aggregate-function whitelist (spec §4.2,
design doc §4.3 `AGGREGATE_FUNCTIONS`). -/
def AGGREGATE_FUNCTIONS : List String :=
  ["SUM", "COUNT", "COUNTA", "AVERAGE", "MIN", "MAX", "MEDIAN",
   "SUMIF", "COUNTIF", "AVERAGEIF"]

/-- Modelled from the spec: the row-level-function whitelist (spec §4.2,
design doc §4.3 `ROW_FUNCTIONS`). -/
def ROW_FUNCTIONS : List String :=
  ["IF", "AND", "OR", "NOT",
   "ISBLANK", "ISNA", "ISNUMBER", "ISERROR",
   "VLOOKUP", "COUNTIFS",
   "IFERROR",
   "ROUND", "ABS",
   "LEFT", "RIGHT", "MID", "LEN", "TRIM", "UPPER", "LOWER", "PROPER",
   "CONCAT", "TEXT", "VALUE", "SUBSTITUTE",
   "FIND", "SEARCH"]

/-- Modelled from the spec: the scalar-function whitelist for `compute`
expressions (design doc §4.3 `SCALAR_FUNCTIONS`, §2.5 available functions). -/
def SCALAR_FUNCTIONS : List String := ["ROUND", "ABS", "MAX", "MIN"]

/-- The binary-operator whitelist (design doc §2.3 operator table, plus the
`==`/`!=` aliases the generator normalises, spec §4.3). -/
def BINARY_OPS : List String :=
  ["+", "-", "*", "/", ">", "<", ">=", "<=", "=", "<>", "&", "==", "!="]

/-- Validation context for one expression: the function whitelist of the
usage context, the target table for `col` references (none in scalar
contexts, where `col` is forbidden), and whether cross-refs/var-refs are
allowed (spec §4.1 checks). -/
structure ExprCtx where
  wl : List String
  colTable : Option Table
  allowRef : Bool
  allowVar : Bool

mutual
/-- Modelled from the spec: recursive whitelist and static-reference
validation of an expression tree, one human-readable message per violation
found (spec §4.1). -/
def exprErrors (reg : FileRegistry) (cfg : ExprCtx) : Expr → List String
  | .lit _ => []
  | .col c =>
      match cfg.colTable with
      | none => ["column reference not allowed here: " ++ c]
      | some t => if t.hasColumn c then [] else ["unknown column: " ++ c]
  | .ref f s c =>
      if !cfg.allowRef then ["cross-table reference not allowed here: " ++ c]
      else
        match reg.getTable f s with
        | none => ["unknown table: " ++ f ++ "." ++ s]
        | some t =>
            if t.hasColumn c then [] else ["unknown column: " ++ c ++ " in " ++ s]
  | .evar x => if cfg.allowVar then [] else ["variable reference not allowed here: " ++ x]
  | .call fn args =>
      (if cfg.wl.contains fn then [] else ["function not in whitelist: " ++ fn]) ++
        exprErrorsL reg cfg args
  | .binop op l r =>
      (if BINARY_OPS.contains op then [] else ["unknown operator: " ++ op]) ++
        exprErrors reg cfg l ++ exprErrors reg cfg r
def exprErrorsL (reg : FileRegistry) (cfg : ExprCtx) : ExprList → List String
  | .nil => []
  | .cons e es => exprErrors reg cfg e ++ exprErrorsL reg cfg es
end

mutual
/-- All variable names referenced in an expression. -/
def varsIn : Expr → List String
  | .lit _ => []
  | .col _ => []
  | .ref _ _ _ => []
  | .evar x => [x]
  | .call _ args => varsInL args
  | .binop _ l r => varsIn l ++ varsIn r
def varsInL : ExprList → List String
  | .nil => []
  | .cons e es => varsIn e ++ varsInL es
end

theorem any_findIdx? {α : Type} {l : List α} {p : α → Bool} (h : l.any p = true) :
    ∃ i, l.findIdx? p = some i := by
  induction l with
  | nil => simp at h
  | cons a rest ih =>
      by_cases hp : p a
      · exact ⟨0, by simp [List.findIdx?_cons, hp]⟩
      · have hpf : p a = false := by simpa using hp
        have h' : rest.any p = true := by simpa [List.any_cons, hpf] using h
        rcases ih h' with ⟨i, hi⟩
        exact ⟨i + 1, by simp [List.findIdx?_cons, hpf, hi]⟩

mutual
/-- On whitelist-valid expressions whose variables all have assigned result
cells, the generator is total: every evaluator-accepted shape has a
translation rule (spec §4.3: untranslatable nodes cannot occur
post-validation). -/
theorem genTotalE (reg : FileRegistry) (fid sheet : String) (t : Table)
    (ht : reg.getTable fid sheet = some t)
    (varCell : String → Option (String × String × Nat)) (cfg : ExprCtx)
    (hcfg : cfg.colTable = some t) :
    (e : Expr) → exprErrors reg cfg e = [] →
      (∀ x, x ∈ varsIn e → (varCell x).isSome = true) →
      ∃ f, genExpr ⟨reg, fid, sheet, varCell⟩ e = .ok f
  | .lit v => by
      intro _ _
      exact ⟨.flit v, rfl⟩
  | .col c => by
      intro he _
      rw [exprErrors, hcfg] at he
      have he2 : (if t.hasColumn c then [] else ["unknown column: " ++ c]) =
          ([] : List String) := he
      have hc : t.hasColumn c = true := by
        by_cases h : t.hasColumn c
        · exact h
        · rw [if_neg h] at he2; cases he2
      rcases any_findIdx? hc with ⟨i, hi⟩
      refine ⟨.cell sheet (excelColName i) .placeholder, ?_⟩
      rw [genExpr, ht]
      show (match t.colIndex c with
        | some i => Except.ok (Formula.cell sheet (excelColName i) RowSpec.placeholder)
        | none => Except.error ("generator: unknown column: " ++ c)) = _
      rw [show Table.colIndex t c = some i from hi]
  | .ref f s c => by
      intro he _
      rw [exprErrors] at he
      by_cases har : cfg.allowRef
      · rw [if_neg (by simp [har])] at he
        rcases htr : reg.getTable f s with _ | tr
        · rw [htr] at he; cases he
        · rw [htr] at he
          have he2 : (if tr.hasColumn c then []
              else ["unknown column: " ++ c ++ " in " ++ s]) = ([] : List String) := he
          have hc : tr.hasColumn c = true := by
            by_cases h : tr.hasColumn c
            · exact h
            · rw [if_neg h] at he2; cases he2
          rcases any_findIdx? hc with ⟨i, hi⟩
          refine ⟨.range s (excelColName i), ?_⟩
          rw [genExpr, htr]
          show (match tr.colIndex c with
            | some i => Except.ok (Formula.range s (excelColName i))
            | none => Except.error ("generator: unknown column: " ++ c)) = _
          rw [show Table.colIndex tr c = some i from hi]
      · have harb : (!cfg.allowRef) = true := by simpa using har
        rw [if_pos harb] at he
        cases he
  | .evar x => by
      intro _ hv
      have := hv x (by simp [varsIn])
      rcases ha : varCell x with _ | a
      · rw [ha] at this; cases this
      · refine ⟨.cell a.1 a.2.1 (.rownum a.2.2), ?_⟩
        rw [genExpr]
        have hb : ({ reg := reg, fid := fid, sheet := sheet, varCell := varCell } :
            GenCtx).varCell x = some a := ha
        rw [hb]
  | .call fn args => by
      intro he hv
      rw [exprErrors] at he
      rcases List.append_eq_nil.mp he with ⟨_, heL⟩
      rcases genTotalL reg fid sheet t ht varCell cfg hcfg args heL
        (fun x hx => hv x (by rw [varsIn]; exact hx)) with ⟨fs, hfs⟩
      exact ⟨.fcall fn fs, by rw [genExpr, hfs]; rfl⟩
  | .binop op l r => by
      intro he hv
      rw [exprErrors] at he
      rcases List.append_eq_nil.mp he with ⟨hAB, heR⟩
      rcases List.append_eq_nil.mp hAB with ⟨_, heL⟩
      rcases genTotalE reg fid sheet t ht varCell cfg hcfg l heL
        (fun x hx => hv x (by rw [varsIn]; exact List.mem_append.mpr (Or.inl hx)))
        with ⟨fl, hfl⟩
      rcases genTotalE reg fid sheet t ht varCell cfg hcfg r heR
        (fun x hx => hv x (by rw [varsIn]; exact List.mem_append.mpr (Or.inr hx)))
        with ⟨frr, hfr⟩
      exact ⟨.fbin (opToExcel op) fl frr, by rw [genExpr, hfl, hfr]; rfl⟩
theorem genTotalL (reg : FileRegistry) (fid sheet : String) (t : Table)
    (ht : reg.getTable fid sheet = some t)
    (varCell : String → Option (String × String × Nat)) (cfg : ExprCtx)
    (hcfg : cfg.colTable = some t) :
    (es : ExprList) → exprErrorsL reg cfg es = [] →
      (∀ x, x ∈ varsInL es → (varCell x).isSome = true) →
      ∃ fs, genArgs ⟨reg, fid, sheet, varCell⟩ es = .ok fs
  | .nil => by
      intro _ _
      exact ⟨.nil, rfl⟩
  | .cons e es => by
      intro he hv
      rw [exprErrorsL] at he
      rcases List.append_eq_nil.mp he with ⟨heE, heL⟩
      rcases genTotalE reg fid sheet t ht varCell cfg hcfg e heE
        (fun x hx => hv x (by rw [varsInL]; exact List.mem_append.mpr (Or.inl hx)))
        with ⟨fe, hfe⟩
      rcases genTotalL reg fid sheet t ht varCell cfg hcfg es heL
        (fun x hx => hv x (by rw [varsInL]; exact List.mem_append.mpr (Or.inr hx)))
        with ⟨fes, hfes⟩
      exact ⟨.cons fe fes, by rw [genArgs, hfe, hfes]; rfl⟩
end

/-! ### The Operation model (spec §3) -/

/-- One filter condition (design doc §2.6). -/
structure FilterCond where
  column : String
  op : String
  value : CellValue
deriving Repr

/-- Where a table-transforming operation writes its result (design doc
§2.6-§2.10 `output`). -/
inductive OutputTarget where
  | inPlace
  | newSheet (name : String)
deriving Repr

/-- Modelled from the spec: the closed set of tagged operation variants,
each carrying its validated fields (spec §3).  `condColumn`/`cond` are the
`*IF` criteria fields; `aggregate`'s `column` is optional because COUNTIF
takes none. -/
inductive Operation where
  | aggregate (fileId table func : String) (column condColumn : Option String)
      (cond : Option CellValue) (asVar : String)
  | addColumn (fileId table name : String) (formula : Expr)
  | updateColumn (fileId table column : String) (formula : Expr)
  | compute (expression : Expr) (asVar : String)
  | filterRows (fileId table : String) (conds : List FilterCond) (logicAnd : Bool)
      (output : OutputTarget)
  | sortRows (fileId table : String) (keys : List (String × Bool))
      (output : OutputTarget)
  | groupBy (fileId table : String) (groupCols : List String)
      (aggs : List (String × String × String)) (outName : String)
  | takeRows (fileId table : String) (rows : Int) (output : OutputTarget)
  | createSheet (fileId name srcType : String) (srcTable : Option String)
      (columns : List String)
deriving Repr

/-- Modelled from the spec: the accumulated execution result — variables,
new/updated columns, generated formulas, error strings (spec §3,
ExecutionResult). -/
structure ExecutionResult where
  vars : List (String × CellValue)
  newColumns : List ((String × String × String) × List CellValue)
  updatedColumns : List ((String × String × String) × List CellValue)
  formulas : List String
  errors : List String
deriving Repr

/-- Executor state: the registry (mutated only by the sheet-producing
operations), the result-cell rows assigned to variables, and the
accumulated result. -/
structure ExecState where
  reg : FileRegistry
  varRows : List (String × Nat)
  res : ExecutionResult
deriving Repr

/-- The result-cell assignment used when generating formulas that reference
variables: variable `x` lives at `Results!B<row>` (design doc §5.4). -/
def varCellOf (varRows : List (String × Nat)) : String → Option (String × String × Nat) :=
  fun x => (lookupAssoc varRows x).map (fun n => ("Results", "B", n))

/-! ### Row-level evaluation for add_column / update_column (spec §4.2) -/

def evalRowScalar (reg : FileRegistry) (vars : List (String × CellValue))
    (t : Table) (e : Expr) (r : Nat) : Except String CellValue :=
  match evalExpr ⟨reg, rowCtxOf t r, vars⟩ e with
  | .ok (.scalar v) => .ok v
  | .ok (.column _) => .error "formula must produce a scalar"
  | .error m => .error m

def rowResults (reg : FileRegistry) (vars : List (String × CellValue))
    (t : Table) (e : Expr) : List (Nat × Except String CellValue) :=
  (List.range t.rowCount).map (fun r => (r, evalRowScalar reg vars t e r))

/-- The failing rows, each with its index and message (spec §4.2: a per-row
failure is recorded against that row's index). -/
def rowFailures (reg : FileRegistry) (vars : List (String × CellValue))
    (t : Table) (e : Expr) : List (Nat × String) :=
  (rowResults reg vars t e).filterMap (fun p =>
    match p.2 with
    | .error m => some (p.1, m)
    | .ok _ => none)

def rowValues (reg : FileRegistry) (vars : List (String × CellValue))
    (t : Table) (e : Expr) : List CellValue :=
  (rowResults reg vars t e).filterMap (fun p =>
    match p.2 with
    | .ok v => some v
    | .error _ => none)

/-- One summarised message naming the offending row indices, capped at five
detailed entries (spec §4.2; design log item 7). -/
def renderRowErrors (fails : List (Nat × String)) : String :=
  "row-level failures: " ++
    String.intercalate "; "
      ((fails.take 5).map (fun p => "row " ++ toString p.1 ++ ": " ++ p.2)) ++
    (if 5 < fails.length then
      " (" ++ toString fails.length ++ " errors in total)" else "")

/-! ### Table transforms for filter / sort / group_by / take (spec §4.4) -/

def Table.selectRows (t : Table) (idxs : List Nat) : Table :=
  ⟨t.name, t.cols.map (fun p => (p.1, idxs.map (fun r => p.2.getD r .blank)))⟩

def filterTest (c : FilterCond) (v : CellValue) : Bool :=
  match c.op with
  | "=" => valueEq v c.value
  | "<>" => !valueEq v c.value
  | ">" =>
      match v, c.value with
      | .num a, .num b => b < a
      | .text a, .text b => b < a
      | _, _ => false
  | "<" =>
      match v, c.value with
      | .num a, .num b => a < b
      | .text a, .text b => a < b
      | _, _ => false
  | ">=" =>
      match v, c.value with
      | .num a, .num b => b ≤ a
      | .text a, .text b => !(a < b)
      | _, _ => false
  | "<=" =>
      match v, c.value with
      | .num a, .num b => a ≤ b
      | .text a, .text b => !(b < a)
      | _, _ => false
  | "contains" =>
      match findSub1 c.value.toText.data v.toText.data 1 with
      | some _ => true
      | none => false
  | _ => false

def rowMatches (t : Table) (conds : List FilterCond) (logicAnd : Bool) (r : Nat) : Bool :=
  let tests := conds.map (fun c =>
    match t.getColumn c.column with
    | some vs => filterTest c (vs.getD r .blank)
    | none => false)
  if logicAnd then tests.all id else tests.any id

/-- `asc`-first comparison of two cells for sorting. -/
def cellLt : CellValue → CellValue → Bool
  | .num a, .num b => a < b
  | .text a, .text b => a < b
  | .boolean a, .boolean b => !a && b
  | .blank, .blank => false
  | .blank, _ => true
  | _, _ => false

/-- Lexicographic multi-key row ordering (`true` = ascending). -/
def rowLe (t : Table) (keys : List (String × Bool)) (r1 r2 : Nat) : Bool :=
  match keys with
  | [] => true
  | (c, asc) :: rest =>
      match t.getColumn c with
      | none => rowLe t rest r1 r2
      | some vs =>
          let a := vs.getD r1 .blank
          let b := vs.getD r2 .blank
          if cellLt a b then asc
          else if cellLt b a then !asc
          else rowLe t rest r1 r2

def insertIdx (le : Nat → Nat → Bool) (x : Nat) : List Nat → List Nat
  | [] => [x]
  | y :: ys => if le x y then x :: y :: ys else y :: insertIdx le x ys

def sortIdxs (le : Nat → Nat → Bool) (l : List Nat) : List Nat :=
  l.foldr (insertIdx le) []

def keyOf (t : Table) (cols : List String) (r : Nat) : List CellValue :=
  cols.map (fun c => ((t.getColumn c).getD []).getD r .blank)

def groupKeys (t : Table) (cols : List String) : List (List CellValue) :=
  ((List.range t.rowCount).map (keyOf t cols)).eraseDups

/-- The grouped/aggregated table of a group_by operation (spec §4.4:
group-key columns plus one aggregated column per declared aggregation). -/
def groupByTable (t : Table) (groupCols : List String)
    (aggs : List (String × String × String)) (outName : String) : Table :=
  let keys := groupKeys t groupCols
  let rowsOf : List CellValue → List Nat := fun k =>
    (List.range t.rowCount).filter (fun r => keyOf t groupCols r == k)
  ⟨outName,
    (groupCols.enum.map (fun p => (p.2, keys.map (fun k => k.getD p.1 .blank)))) ++
      aggs.map (fun a =>
        (a.2.2, keys.map (fun k =>
          match aggApply a.2.1 ((rowsOf k).map (fun r =>
            ((t.getColumn a.1).getD []).getD r .blank)) with
          | .ok v => v
          | .error _ => .blank)))⟩

def takeTable (t : Table) (n : Int) : Table :=
  if 0 ≤ n then ⟨t.name, t.cols.map (fun p => (p.1, p.2.take n.toNat))⟩
  else ⟨t.name, t.cols.map (fun p => (p.1, p.2.drop (p.2.length - (-n).toNat)))⟩

def ExcelFile.setSheet (f : ExcelFile) (name : String) (t : Table) : ExcelFile :=
  if f.sheets.any (fun p => p.1 == name) then
    ⟨f.fileId, f.filename, f.sheets.map (fun p => if p.1 == name then (name, t) else p)⟩
  else ⟨f.fileId, f.filename, f.sheets ++ [(name, t)]⟩

def FileRegistry.setTable (reg : FileRegistry) (fid name : String) (t : Table) :
    FileRegistry :=
  ⟨reg.files.map (fun p => if p.1 == fid then (p.1, p.2.setSheet name t) else p)⟩

def writeOutput (reg : FileRegistry) (fid srcName : String) (output : OutputTarget)
    (t : Table) : FileRegistry :=
  match output with
  | .inPlace => reg.setTable fid srcName ⟨srcName, t.cols⟩
  | .newSheet n => reg.setTable fid n ⟨n, t.cols⟩

/-! ### The Executor (spec §4.4) -/

/-- The per-operation outcome: the (possibly transformed) registry, the
variable result-cell rows, and the additions to each result field.  The
result fields are append-only — prior outputs are never rolled back
(spec §4.4). -/
structure OpOut where
  reg : FileRegistry
  varRows : List (String × Nat)
  dVars : List (String × CellValue)
  dNew : List ((String × String × String) × List CellValue)
  dUpd : List ((String × String × String) × List CellValue)
  dFml : List String
  dErr : List String

def ExecState.keepOut (st : ExecState) : OpOut :=
  ⟨st.reg, st.varRows, [], [], [], [], []⟩

def ExecState.failOut (st : ExecState) (m : String) : OpOut :=
  ⟨st.reg, st.varRows, [], [], [], [], [m]⟩

/-- The aggregate operation as the whole-column expression it evaluates
(spec §4.4: cross-ref-style whole-column access plus the named aggregate
function, optionally condition-filtered). -/
def aggExprOf (fid table func : String) (column condColumn : Option String)
    (cond : Option CellValue) : Except String Expr :=
  match condColumn, cond with
  | some cc, some cv =>
      if func == "COUNTIF" then
        .ok (.call func (.cons (.ref fid table cc) (.cons (.lit cv) .nil)))
      else
        match column with
        | some c => .ok (.call func
            (.cons (.ref fid table cc) (.cons (.lit cv) (.cons (.ref fid table c) .nil))))
        | none => .error "aggregate: missing column"
  | _, _ =>
      match column with
      | some c => .ok (.call func (.cons (.ref fid table c) .nil))
      | none => .error "aggregate: missing column"

/-- Record a scalar result under its `as` name, assign it the next result
cell, and emit the generated formula (spec §4.4). -/
def scalarOut (st : ExecState) (fid sheet : String) (e : Expr) (asVar : String)
    (v : CellValue) : OpOut :=
  let fml := match genExpr ⟨st.reg, fid, sheet, varCellOf st.varRows⟩ e with
    | .ok f => ["=" ++ f.render]
    | .error m => []
  let gerr := match genExpr ⟨st.reg, fid, sheet, varCellOf st.varRows⟩ e with
    | .ok _ => []
    | .error m => ["generator error: " ++ m]
  ⟨st.reg, st.varRows ++ [(asVar, st.varRows.length + 1)], [(asVar, v)], [], [],
    fml, gerr⟩

/-- Modelled from the spec: per-operation dispatch of the Executor
(spec §4.4).  Every failure path leaves the result fields untouched except
for the appended error. -/
def execOpCore (st : ExecState) : Operation → OpOut
  | .aggregate fid table func column condColumn cond asVar =>
      match lookupAssoc st.res.vars asVar with
      | some _ => st.failOut ("variable already defined: " ++ asVar)
      | none =>
          match aggExprOf fid table func column condColumn cond with
          | .error m => st.failOut m
          | .ok e =>
              match evalExpr ⟨st.reg, [], st.res.vars⟩ e with
              | .error m => st.failOut m
              | .ok (.column _) => st.failOut "aggregate did not produce a scalar"
              | .ok (.scalar v) => scalarOut st fid table e asVar v
  | .addColumn fid table name e =>
      match st.reg.getTable fid table with
      | none => st.failOut ("table not found: " ++ fid ++ "." ++ table)
      | some t =>
          if t.hasColumn name then
            st.failOut ("add_column: column already exists: " ++ name)
          else
            let fails := rowFailures st.reg st.res.vars t e
            if fails.isEmpty then
              let fml := match genExpr ⟨st.reg, fid, table, varCellOf st.varRows⟩ e with
                | .ok f => ["=" ++ f.render]
                | .error _ => []
              ⟨st.reg, st.varRows, [],
                [((fid, table, name), rowValues st.reg st.res.vars t e)], [],
                fml, []⟩
            else st.failOut (renderRowErrors fails)
  | .updateColumn fid table column e =>
      match st.reg.getTable fid table with
      | none => st.failOut ("table not found: " ++ fid ++ "." ++ table)
      | some t =>
          if !t.hasColumn column then
            st.failOut ("update_column: column does not exist: " ++ column)
          else
            let fails := rowFailures st.reg st.res.vars t e
            if fails.isEmpty then
              let fml := match genExpr ⟨st.reg, fid, table, varCellOf st.varRows⟩ e with
                | .ok f => ["=" ++ f.render]
                | .error _ => []
              ⟨st.reg, st.varRows, [], [],
                [((fid, table, column), rowValues st.reg st.res.vars t e)],
                fml, []⟩
            else st.failOut (renderRowErrors fails)
  | .compute e asVar =>
      match lookupAssoc st.res.vars asVar with
      | some _ => st.failOut ("variable already defined: " ++ asVar)
      | none =>
          match evalExpr ⟨st.reg, [], st.res.vars⟩ e with
          | .error m => st.failOut m
          | .ok (.column _) => st.failOut "compute did not produce a scalar"
          | .ok (.scalar v) => scalarOut st "" "" e asVar v
  | .filterRows fid table conds logicAnd output =>
      match st.reg.getTable fid table with
      | none => st.failOut ("table not found: " ++ fid ++ "." ++ table)
      | some t =>
          let idxs := (List.range t.rowCount).filter (rowMatches t conds logicAnd)
          { st.keepOut with
              reg := writeOutput st.reg fid table output (t.selectRows idxs) }
  | .sortRows fid table keys output =>
      match st.reg.getTable fid table with
      | none => st.failOut ("table not found: " ++ fid ++ "." ++ table)
      | some t =>
          let idxs := sortIdxs (rowLe t keys) (List.range t.rowCount)
          { st.keepOut with
              reg := writeOutput st.reg fid table output (t.selectRows idxs) }
  | .groupBy fid table groupCols aggs outName =>
      match st.reg.getTable fid table with
      | none => st.failOut ("table not found: " ++ fid ++ "." ++ table)
      | some t =>
          { st.keepOut with
              reg := st.reg.setTable fid outName (groupByTable t groupCols aggs outName) }
  | .takeRows fid table rows output =>
      match st.reg.getTable fid table with
      | none => st.failOut ("table not found: " ++ fid ++ "." ++ table)
      | some t =>
          { st.keepOut with
              reg := writeOutput st.reg fid table output (takeTable t rows) }
  | .createSheet fid name srcType srcTable columns =>
      match srcType with
      | "empty" =>
          { st.keepOut with
              reg := st.reg.setTable fid name ⟨name, columns.map (fun c => (c, []))⟩ }
      | "copy" =>
          match srcTable with
          | none => st.failOut "create_sheet: missing source table"
          | some src =>
              match st.reg.getTable fid src with
              | none => st.failOut ("table not found: " ++ fid ++ "." ++ src)
              | some t =>
                  { st.keepOut with reg := st.reg.setTable fid name ⟨name, t.cols⟩ }
      | "reference" =>
          match srcTable with
          | none => st.failOut "create_sheet: missing source table"
          | some src =>
              match st.reg.getTable fid src with
              | none => st.failOut ("table not found: " ++ fid ++ "." ++ src)
              | some t =>
                  { st.keepOut with
                      reg := st.reg.setTable fid name
                        ⟨name, t.cols.map (fun p => (p.1, []))⟩ }
      | other => st.failOut ("create_sheet: unknown source type: " ++ other)

/-- One executor step: apply the operation's additions to the accumulated
result.  All result fields grow monotonically; failures only append to
`errors` (spec §4.4, §7). -/
def execOp (st : ExecState) (op : Operation) : ExecState :=
  let o := execOpCore st op
  ⟨o.reg, o.varRows,
    ⟨st.res.vars ++ o.dVars,
     st.res.newColumns ++ o.dNew,
     st.res.updatedColumns ++ o.dUpd,
     st.res.formulas ++ o.dFml,
     st.res.errors ++ o.dErr⟩⟩

def initState (reg : FileRegistry) : ExecState := ⟨reg, [], ⟨[], [], [], [], []⟩⟩

/-- Modelled from the spec: the Executor walks the validated operation list
strictly in order, accumulating the shared variable/column namespace
(spec §4.4). -/
def execute (reg : FileRegistry) (ops : List Operation) : ExecState :=
  ops.foldl execOp (initState reg)

/-! ### Raw JSON documents and the Parser/Validator (spec §4.1, §6) -/

mutual
/-- Raw JSON values; arrays and objects use mutual spine types so that all
recursion over documents stays structural. -/
inductive Json where
  | jnull
  | jstr (s : String)
  | jnum (q : ℚ)
  | jbool (b : Bool)
  | jarr (xs : JsonArr)
  | jobj (fs : JsonObj)
deriving Repr
inductive JsonArr where
  | nil
  | cons (x : Json) (xs : JsonArr)
deriving Repr
inductive JsonObj where
  | nil
  | cons (k : String) (v : Json) (fs : JsonObj)
deriving Repr
end

def JsonObj.lookup : JsonObj → String → Option Json
  | .nil, _ => none
  | .cons k v fs, key => if k == key then some v else JsonObj.lookup fs key

def JsonArr.toList : JsonArr → List Json
  | .nil => []
  | .cons x xs => x :: xs.toList

def getField (j : Json) (k : String) : Option Json :=
  match j with
  | .jobj fs => fs.lookup k
  | _ => none

def getStr (j : Json) (k : String) : Option String :=
  match getField j k with
  | some (.jstr s) => some s
  | _ => none

/-- A JSON scalar as a cell value. -/
def jsonToCell : Json → Option CellValue
  | .jnum q => some (.num q)
  | .jstr s => some (.text s)
  | .jbool b => some (.boolean b)
  | .jnull => some .blank
  | _ => none

mutual
/-- Modelled from the spec: the wire contract's expression-object shapes
`{"value":…}`, `{"col":…}`, `{"ref":…}`, `{"var":…}`,
`{"func":…,"args":[…]}`, `{"op":…,"left":…,"right":…}`, preserved
bit-for-bit (spec §6); anything else is a malformed expression object. -/
def toExpr : Json → Except String Expr
  | .jobj (.cons "value" v .nil) =>
      match jsonToCell v with
      | some c => .ok (.lit c)
      | none => .error "literal value must be a scalar"
  | .jobj (.cons "col" (.jstr c) .nil) => .ok (.col c)
  | .jobj (.cons "ref" (.jstr r) .nil) =>
      match splitDots r with
      | [f, s, c] => .ok (.ref f s c)
      | _ => .error ("cross-table reference must be file-id.sheet.column: " ++ r)
  | .jobj (.cons "var" (.jstr x) .nil) => .ok (.evar x)
  | .jobj (.cons "func" (.jstr fn) (.cons "args" (.jarr xs) .nil)) => do
      let args ← toExprArgs xs
      .ok (.call fn args)
  | .jobj (.cons "op" (.jstr o) (.cons "left" l (.cons "right" r .nil))) => do
      let le ← toExpr l
      let re ← toExpr r
      .ok (.binop o le re)
  | _ => .error "invalid expression object"
def toExprArgs : JsonArr → Except String ExprList
  | .nil => .ok .nil
  | .cons x xs => do
      let e ← toExpr x
      let es ← toExprArgs xs
      .ok (.cons e es)
end

/-- Modelled from the spec: the nine known operation types (spec §4.1:
"Operation `type` is one of the nine known variants"; spec §2 Operation
Model). -/
def VALID_TYPES : List String :=
  ["aggregate", "add_column", "update_column", "compute", "filter", "sort",
   "group_by", "take", "create_sheet"]

def typeErrors (j : Json) : List String :=
  match getStr j "type" with
  | none => ["missing or non-string operation type"]
  | some t => if VALID_TYPES.contains t then [] else ["unknown operation type: " ++ t]

/-- Which shape a required field must have. -/
inductive FieldKind where
  | str
  | obj
  | arr
  | intNum
  | scalar
deriving DecidableEq, Repr

def fieldKindOk (k : FieldKind) : Json → Bool
  | .jstr _ => k == .str || k == .scalar
  | .jobj _ => k == .obj
  | .jarr _ => k == .arr
  | .jnum _ => k == .intNum || k == .scalar
  | .jbool _ => k == .scalar
  | .jnull => false

def reqField (j : Json) (k : String) (kind : FieldKind) : List String :=
  match getField j k with
  | none => ["missing required field: " ++ k]
  | some v => if fieldKindOk kind v then [] else ["field has the wrong kind: " ++ k]

/-- The required fields of each operation variant (spec §4.1; design doc
§2.2-§2.10 field tables). -/
def requiredFieldsOf : String → List (String × FieldKind)
  | "aggregate" => [("function", .str), ("file_id", .str), ("table", .str), ("as", .str)]
  | "add_column" =>
      [("file_id", .str), ("table", .str), ("name", .str), ("formula", .obj)]
  | "update_column" =>
      [("file_id", .str), ("table", .str), ("column", .str), ("formula", .obj)]
  | "compute" => [("expression", .obj), ("as", .str)]
  | "filter" =>
      [("file_id", .str), ("table", .str), ("conditions", .arr), ("output", .obj)]
  | "sort" => [("file_id", .str), ("table", .str), ("by", .arr)]
  | "group_by" =>
      [("file_id", .str), ("table", .str), ("group_columns", .arr),
        ("aggregations", .arr), ("output", .obj)]
  | "take" => [("file_id", .str), ("table", .str), ("rows", .intNum)]
  | "create_sheet" => [("file_id", .str), ("name", .str)]
  | _ => []

/-- The `*IF` aggregate criteria fields, and `column` for the functions that
aggregate one (design doc §4.2 required-field table). -/
def aggregateExtraFieldErrors (j : Json) : List String :=
  match getStr j "function" with
  | none => []
  | some f =>
      (if f == "COUNTIF" then [] else reqField j "column" .str) ++
        (if f == "SUMIF" || f == "COUNTIF" || f == "AVERAGEIF" then
          reqField j "condition_column" .str ++ reqField j "condition" .scalar
        else [])

def requiredFieldErrors (j : Json) : List String :=
  match getStr j "type" with
  | none => []
  | some ty =>
      (requiredFieldsOf ty).flatMap (fun p => reqField j p.1 p.2) ++
        (if ty == "aggregate" then aggregateExtraFieldErrors j else [])

/-- Expression-validation context for `compute` expressions: scalar
whitelist, no row columns, no cross-refs (spec §4.4 compute). -/
def computeCtx : ExprCtx := ⟨SCALAR_FUNCTIONS, none, false, true⟩

/-- Expression-validation context for `add_column`/`update_column` row
formulas over target table `t`. -/
def rowFormulaCtx (t : Table) : ExprCtx := ⟨ROW_FUNCTIONS, some t, true, true⟩

/-- Raw-expression validation: shape errors from the wire format, then the
recursive whitelist/static-reference checks (spec §4.1). -/
def exprJsonErrors (reg : FileRegistry) (cfg : ExprCtx) (j : Json) : List String :=
  match toExpr j with
  | .error m => [m]
  | .ok e => exprErrors reg cfg e

def GROUP_FUNCTIONS : List String := ["SUM", "COUNT", "AVERAGE", "MIN", "MAX"]

def columnCheck (t : Table) (c : String) : List String :=
  if t.hasColumn c then [] else ["unknown column: " ++ c]

/-- Whitelist membership and static file/sheet/column checks per variant
(spec §4.1: references are validated wherever statically known; every
function name must belong to the whitelist of the context it appears in). -/
def contentErrors (reg : FileRegistry) (j : Json) : List String :=
  match getStr j "type" with
  | some "aggregate" =>
      (match getStr j "function" with
        | some f =>
            if AGGREGATE_FUNCTIONS.contains f then []
            else ["function not in whitelist: " ++ f]
        | none => []) ++
      (match getStr j "file_id", getStr j "table" with
        | some f, some tt =>
            match reg.getTable f tt with
            | none => ["unknown table: " ++ f ++ "." ++ tt]
            | some t =>
                (match getStr j "column" with
                  | some c => columnCheck t c
                  | none => []) ++
                (match getStr j "condition_column" with
                  | some c => columnCheck t c
                  | none => [])
        | _, _ => [])
  | some "add_column" =>
      (match getStr j "file_id", getStr j "table" with
        | some f, some tt =>
            match reg.getTable f tt with
            | none => ["unknown table: " ++ f ++ "." ++ tt]
            | some t =>
                match getField j "formula" with
                | some fj => exprJsonErrors reg (rowFormulaCtx t) fj
                | none => []
        | _, _ => [])
  | some "update_column" =>
      (match getStr j "file_id", getStr j "table" with
        | some f, some tt =>
            match reg.getTable f tt with
            | none => ["unknown table: " ++ f ++ "." ++ tt]
            | some t =>
                (match getStr j "column" with
                  | some c => columnCheck t c
                  | none => []) ++
                (match getField j "formula" with
                  | some fj => exprJsonErrors reg (rowFormulaCtx t) fj
                  | none => [])
        | _, _ => [])
  | some "compute" =>
      (match getField j "expression" with
        | some ej => exprJsonErrors reg computeCtx ej
        | none => [])
  | some "filter" =>
      (match getStr j "file_id", getStr j "table" with
        | some f, some tt =>
            match reg.getTable f tt with
            | none => ["unknown table: " ++ f ++ "." ++ tt]
            | some t =>
                (match getField j "conditions" with
                  | some (.jarr xs) => xs.toList.flatMap (fun cj =>
                      match getStr cj "column" with
                      | some c => columnCheck t c
                      | none => ["missing required field: column"])
                  | _ => [])
        | _, _ => [])
  | some "sort" =>
      (match getStr j "file_id", getStr j "table" with
        | some f, some tt =>
            match reg.getTable f tt with
            | none => ["unknown table: " ++ f ++ "." ++ tt]
            | some t =>
                (match getField j "by" with
                  | some (.jarr xs) => xs.toList.flatMap (fun kj =>
                      match getStr kj "column" with
                      | some c => columnCheck t c
                      | none => ["missing required field: column"])
                  | _ => [])
        | _, _ => [])
  | some "group_by" =>
      (match getStr j "file_id", getStr j "table" with
        | some f, some tt =>
            match reg.getTable f tt with
            | none => ["unknown table: " ++ f ++ "." ++ tt]
            | some t =>
                (match getField j "group_columns" with
                  | some (.jarr xs) => xs.toList.flatMap (fun cj =>
                      match cj with
                      | .jstr c => columnCheck t c
                      | _ => ["group column must be a string"])
                  | _ => []) ++
                (match getField j "aggregations" with
                  | some (.jarr xs) => xs.toList.flatMap (fun aj =>
                      (match getStr aj "function" with
                        | some f =>
                            if GROUP_FUNCTIONS.contains f then []
                            else ["function not in whitelist: " ++ f]
                        | none => ["missing required field: function"]) ++
                      (match getStr aj "column" with
                        | some c => columnCheck t c
                        | none => ["missing required field: column"]))
                  | _ => [])
        | _, _ => [])
  | some "take" =>
      (match getStr j "file_id", getStr j "table" with
        | some f, some tt =>
            match reg.getTable f tt with
            | none => ["unknown table: " ++ f ++ "." ++ tt]
            | some _ => []
        | _, _ => [])
  | some "create_sheet" =>
      (match getStr j "file_id" with
        | some f =>
            match getField j "source" with
            | some src =>
                (match getStr src "type" with
                  | some "copy" | some "reference" =>
                      (match getStr src "table" with
                        | some srcT =>
                            match reg.getTable f srcT with
                            | none => ["unknown table: " ++ f ++ "." ++ srcT]
                            | some _ => []
                        | none => ["missing required field: source.table"])
                  | _ => [])
            | none => []
        | none => [])
  | _ => []

/-- All validation messages for one raw operation, one per violation found
(spec §4.1). -/
def opErrors (reg : FileRegistry) (j : Json) : List String :=
  typeErrors j ++ requiredFieldErrors j ++ contentErrors reg j

/-! #### Construction of the validated Operation model -/

def parseOutput (j : Option Json) : OutputTarget :=
  match j with
  | some o =>
      (match getStr o "type", getStr o "name" with
        | some "new_sheet", some n => .newSheet n
        | _, _ => .inPlace)
  | none => .inPlace

def parseFilterCond (cj : Json) : Option FilterCond :=
  match getStr cj "column", getStr cj "op", getField cj "value" with
  | some c, some o, some vj =>
      (jsonToCell vj).map (fun v => ⟨c, o, v⟩)
  | _, _, _ => none

def parseSortKey (kj : Json) : Option (String × Bool) :=
  match getStr kj "column" with
  | some c => some (c, !(getStr kj "order" == some "desc"))
  | none => none

def parseGroupAgg (aj : Json) : Option (String × String × String) :=
  match getStr aj "column", getStr aj "function", getStr aj "as" with
  | some c, some f, some a => some (c, f, a)
  | _, _, _ => none

def strListOf (xs : JsonArr) : Option (List String) :=
  xs.toList.mapM (fun j => match j with | .jstr s => some s | _ => none)

/-- Modelled from the spec: raw operation → Operation model, defined only
up to the shapes validation admits (spec §4.1). -/
def toOperation (j : Json) : Option Operation :=
  match getStr j "type" with
  | some "aggregate" =>
      (match getStr j "function", getStr j "file_id", getStr j "table",
          getStr j "as" with
        | some fn, some f, some tt, some a =>
            some (.aggregate f tt fn (getStr j "column") (getStr j "condition_column")
              ((getField j "condition").bind jsonToCell) a)
        | _, _, _, _ => none)
  | some "add_column" =>
      (match getStr j "file_id", getStr j "table", getStr j "name",
          getField j "formula" with
        | some f, some tt, some n, some fj =>
            (match toExpr fj with
              | .ok e => some (.addColumn f tt n e)
              | .error _ => none)
        | _, _, _, _ => none)
  | some "update_column" =>
      (match getStr j "file_id", getStr j "table", getStr j "column",
          getField j "formula" with
        | some f, some tt, some c, some fj =>
            (match toExpr fj with
              | .ok e => some (.updateColumn f tt c e)
              | .error _ => none)
        | _, _, _, _ => none)
  | some "compute" =>
      (match getField j "expression", getStr j "as" with
        | some ej, some a =>
            (match toExpr ej with
              | .ok e => some (.compute e a)
              | .error _ => none)
        | _, _ => none)
  | some "filter" =>
      (match getStr j "file_id", getStr j "table", getField j "conditions" with
        | some f, some tt, some (.jarr xs) =>
            (xs.toList.mapM parseFilterCond).map (fun cs =>
              .filterRows f tt cs (!(getStr j "logic" == some "OR"))
                (parseOutput (getField j "output")))
        | _, _, _ => none)
  | some "sort" =>
      (match getStr j "file_id", getStr j "table", getField j "by" with
        | some f, some tt, some (.jarr xs) =>
            (xs.toList.mapM parseSortKey).map (fun ks =>
              .sortRows f tt ks (parseOutput (getField j "output")))
        | _, _, _ => none)
  | some "group_by" =>
      (match getStr j "file_id", getStr j "table", getField j "group_columns",
          getField j "aggregations" with
        | some f, some tt, some (.jarr gs), some (.jarr as_) =>
            (match strListOf gs, as_.toList.mapM parseGroupAgg,
                getField j "output" with
              | some gcols, some aggs, some o =>
                  (getStr o "name").map (fun n => .groupBy f tt gcols aggs n)
              | _, _, _ => none)
        | _, _, _, _ => none)
  | some "take" =>
      (match getStr j "file_id", getStr j "table", getField j "rows" with
        | some f, some tt, some (.jnum q) =>
            some (.takeRows f tt q.num (parseOutput (getField j "output")))
        | _, _, _ => none)
  | some "create_sheet" =>
      (match getStr j "file_id", getStr j "name" with
        | some f, some n =>
            some (.createSheet f n
              ((getField j "source").bind (fun s => getStr s "type") |>.getD "empty")
              ((getField j "source").bind (fun s => getStr s "table"))
              (((getField j "columns").bind (fun c =>
                match c with
                | .jarr xs => strListOf xs
                | _ => none)).getD []))
        | _, _ => none)
  | _ => none

def docOps (doc : Json) : Option (List Json) :=
  match getField doc "operations" with
  | some (.jarr xs) => some xs.toList
  | _ => none

/-- Modelled from the spec: the Parser/Validator — either a fully validated
operation list, or zero operations plus the batched list of human-readable
messages, one per violation found; never a partial list (spec §4.1). -/
def parseOperations (reg : FileRegistry) (doc : Json) :
    List Operation × List String :=
  match docOps doc with
  | none => ([], ["document must contain an operations array"])
  | some ops =>
      let errs := ops.flatMap (opErrors reg)
      if errs.isEmpty then
        let parsed := ops.map toOperation
        if parsed.all Option.isSome then (parsed.reduceOption, [])
        else ([], ["operation shape could not be parsed"])
      else ([], errs)

/-! ### Malformedness lemmas for the validator -/

mutual
/-- Every function name appearing anywhere in an expression tree. -/
def funcsIn : Expr → List String
  | .lit _ => []
  | .col _ => []
  | .ref _ _ _ => []
  | .evar _ => []
  | .call fn args => fn :: funcsInL args
  | .binop _ l r => funcsIn l ++ funcsIn r
def funcsInL : ExprList → List String
  | .nil => []
  | .cons e es => funcsIn e ++ funcsInL es
end

theorem ne_nil_left {l₁ l₂ : List String} (h : l₁ ≠ []) : l₁ ++ l₂ ≠ [] :=
  fun hc => h (List.append_eq_nil.mp hc).1

theorem ne_nil_right {l₁ l₂ : List String} (h : l₂ ≠ []) : l₁ ++ l₂ ≠ [] :=
  fun hc => h (List.append_eq_nil.mp hc).2

mutual
/-- A function name outside the context's whitelist always produces at
least one validation message (spec §4.1). -/
theorem exprErrors_funcs (reg : FileRegistry) (cfg : ExprCtx) :
    (e : Expr) → ∀ fn, fn ∈ funcsIn e → fn ∉ cfg.wl → exprErrors reg cfg e ≠ []
  | .lit v => by intro fn hm; rw [funcsIn] at hm; cases hm
  | .col c => by intro fn hm; rw [funcsIn] at hm; cases hm
  | .ref f s c => by intro fn hm; rw [funcsIn] at hm; cases hm
  | .evar x => by intro fn hm; rw [funcsIn] at hm; cases hm
  | .call f args => by
      intro fn hm hwl
      rw [funcsIn] at hm
      rw [exprErrors]
      rcases List.mem_cons.mp hm with h | h
      · subst h
        have hc : cfg.wl.contains fn = false := by
          simpa using hwl
        rw [hc]
        simp
      · exact ne_nil_right (exprErrorsL_funcs reg cfg args fn h hwl)
  | .binop o l r => by
      intro fn hm hwl
      rw [funcsIn] at hm
      rw [exprErrors]
      rcases List.mem_append.mp hm with h | h
      · exact ne_nil_left (ne_nil_right (exprErrors_funcs reg cfg l fn h hwl))
      · exact ne_nil_right (exprErrors_funcs reg cfg r fn h hwl)
theorem exprErrorsL_funcs (reg : FileRegistry) (cfg : ExprCtx) :
    (es : ExprList) → ∀ fn, fn ∈ funcsInL es → fn ∉ cfg.wl →
      exprErrorsL reg cfg es ≠ []
  | .nil => by intro fn hm; rw [funcsInL] at hm; cases hm
  | .cons e es => by
      intro fn hm hwl
      rw [funcsInL] at hm
      rw [exprErrorsL]
      rcases List.mem_append.mp hm with h | h
      · exact ne_nil_left (exprErrors_funcs reg cfg e fn h hwl)
      · exact ne_nil_right (exprErrorsL_funcs reg cfg es fn h hwl)
end

theorem flatMap_ne_nil_of_mem {α : Type} {l : List α} {f : α → List String} {x : α}
    (hx : x ∈ l) (h : f x ≠ []) : l.flatMap f ≠ [] := by
  induction l with
  | nil => cases hx
  | cons a rest ih =>
      rw [List.flatMap_cons]
      rcases List.mem_cons.mp hx with he | hm
      · subst he
        exact ne_nil_left h
      · exact ne_nil_right (ih hm)

theorem count_le_flatMap {α : Type} (l : List α) (f : α → List String)
    (h : ∀ x ∈ l, f x ≠ [] → 1 ≤ (f x).length) :
    (l.filter (fun x => !(f x).isEmpty)).length ≤ (l.flatMap f).length := by
  induction l with
  | nil => simp
  | cons a rest ih =>
      rw [List.flatMap_cons, List.filter_cons, List.length_append]
      have ih' := ih (fun x hx => h x (List.mem_cons_of_mem a hx))
      by_cases hfa : (f a).isEmpty
      · have : (!(f a).isEmpty) = false := by simp [hfa]
        rw [this]
        simp only [Bool.false_eq_true, if_false]
        omega
      · have hne : f a ≠ [] := by
          rcases he : f a with _ | _
          · rw [he] at hfa; exact absurd rfl hfa
          · simp
        have h1 : 1 ≤ (f a).length := h a (List.mem_cons_self a rest) hne
        have : (!(f a).isEmpty) = true := by simp [List.isEmpty_iff, hne]
        rw [this]
        simp only [if_true, List.length_cons]
        omega

/-- Shared: one malformed operation forces the fail-closed outcome. -/
theorem parseOperations_fail (reg : FileRegistry) (doc : Json) (ops : List Json)
    (j : Json) (hops : docOps doc = some ops) (hj : j ∈ ops)
    (hne : opErrors reg j ≠ []) :
    parseOperations reg doc = ([], ops.flatMap (opErrors reg)) ∧
    ops.flatMap (opErrors reg) ≠ [] := by
  have herrs : ops.flatMap (opErrors reg) ≠ [] := flatMap_ne_nil_of_mem hj hne
  constructor
  · rw [parseOperations, hops]
    have : (ops.flatMap (opErrors reg)).isEmpty = false := by
      rcases he : ops.flatMap (opErrors reg) with _ | _
      · exact absurd he herrs
      · rfl
    simp only [this, Bool.false_eq_true, if_false]
  · exact herrs

/-- C4: a document containing any malformed operation — unknown type,
missing required field, function outside the context's whitelist, or a
statically known reference to a nonexistent file/sheet/column — is rejected
with zero operations and at least one message, one message per malformed
operation found, and no partial list is ever produced. -/
theorem validator_fail_closed :
    (∀ (reg : FileRegistry) (j : Json),
      (∀ t, getStr j "type" = some t → t ∉ VALID_TYPES) → opErrors reg j ≠ []) ∧
    (∀ (reg : FileRegistry) (j : Json) (ty : String) (p : String × FieldKind),
      getStr j "type" = some ty → p ∈ requiredFieldsOf ty →
      getField j p.1 = none → opErrors reg j ≠ []) ∧
    (∀ (reg : FileRegistry) (j : Json) (fj : Json) (e : Expr) (fn : String),
      getStr j "type" = some "compute" → getField j "expression" = some fj →
      toExpr fj = .ok e → fn ∈ funcsIn e → fn ∉ SCALAR_FUNCTIONS →
      opErrors reg j ≠ []) ∧
    (∀ (reg : FileRegistry) (j : Json) (f tt : String),
      getStr j "type" = some "aggregate" → getStr j "file_id" = some f →
      getStr j "table" = some tt → reg.getTable f tt = none →
      opErrors reg j ≠ []) ∧
    (∀ (reg : FileRegistry) (j : Json) (f tt c : String) (t : Table),
      getStr j "type" = some "aggregate" → getStr j "file_id" = some f →
      getStr j "table" = some tt → reg.getTable f tt = some t →
      getStr j "column" = some c → t.hasColumn c = false →
      opErrors reg j ≠ []) ∧
    (∀ (reg : FileRegistry) (doc : Json) (ops : List Json) (j : Json),
      docOps doc = some ops → j ∈ ops → opErrors reg j ≠ [] →
      (parseOperations reg doc).1 = [] ∧ (parseOperations reg doc).2 ≠ [] ∧
      (ops.filter (fun x => !(opErrors reg x).isEmpty)).length ≤
        (parseOperations reg doc).2.length) := by
  refine ⟨?_, ?_, ?_, ?_, ?_, ?_⟩
  · intro reg j hty
    refine ne_nil_left (ne_nil_left ?_)
    rw [typeErrors]
    rcases hts : getStr j "type" with _ | t
    · simp
    · have := hty t hts
      have hc : VALID_TYPES.contains t = false := by simpa using this
      show (if VALID_TYPES.contains t = true then []
        else ["unknown operation type: " ++ t]) ≠ []
      rw [hc]
      simp
  · intro reg j ty p hty hp hnone
    refine ne_nil_left (ne_nil_right ?_)
    rw [requiredFieldErrors, hty]
    refine ne_nil_left (flatMap_ne_nil_of_mem hp ?_)
    rw [reqField, hnone]
    simp
  · intro reg j fj e fn hty hfj htE hfn hwl
    refine ne_nil_right ?_
    rw [contentErrors, hty]
    show (match getField j "expression" with
      | some ej => exprJsonErrors reg computeCtx ej
      | none => []) ≠ []
    rw [hfj]
    show (match toExpr fj with
      | .error m => [m]
      | .ok e => exprErrors reg computeCtx e) ≠ []
    rw [htE]
    exact exprErrors_funcs reg computeCtx e fn hfn hwl
  · intro reg j f tt hty hf htt hnone
    refine ne_nil_right ?_
    rw [contentErrors, hty]
    refine ne_nil_right ?_
    rw [hf, htt]
    show (match reg.getTable f tt with
      | none => ["unknown table: " ++ f ++ "." ++ tt]
      | some t =>
          (match getStr j "column" with
            | some c => columnCheck t c
            | none => []) ++
            (match getStr j "condition_column" with
              | some c => columnCheck t c
              | none => [])) ≠ []
    rw [hnone]
    simp
  · intro reg j f tt c t hty hf htt ht hc hnc
    refine ne_nil_right ?_
    rw [contentErrors, hty]
    refine ne_nil_right ?_
    rw [hf, htt]
    show (match reg.getTable f tt with
      | none => ["unknown table: " ++ f ++ "." ++ tt]
      | some t =>
          (match getStr j "column" with
            | some c => columnCheck t c
            | none => []) ++
            (match getStr j "condition_column" with
              | some c => columnCheck t c
              | none => [])) ≠ []
    rw [ht]
    show ((match getStr j "column" with
        | some c => columnCheck t c
        | none => []) ++
        (match getStr j "condition_column" with
          | some c => columnCheck t c
          | none => [])) ≠ []
    rw [hc]
    refine ne_nil_left ?_
    show (if t.hasColumn c then [] else ["unknown column: " ++ c]) ≠ []
    rw [hnc]
    simp
  · intro reg doc ops j hops hj hne
    rcases parseOperations_fail reg doc ops j hops hj hne with ⟨hp, hflat⟩
    rw [hp]
    refine ⟨rfl, hflat, ?_⟩
    exact count_le_flatMap ops (opErrors reg) (fun x _ h => by
      rcases he : opErrors reg x with _ | _
      · exact absurd he h
      · simp [he])

/-- C5: the Parser/Validator accepts an operation's `type` field exactly
when it is one of the nine known variants — `VALID_TYPES` is literally
that nine-element set, acceptance is equivalence with membership, and any
other type value fails the whole document. -/
theorem operation_type_whitelist :
    VALID_TYPES = ["aggregate", "add_column", "update_column", "compute",
      "filter", "sort", "group_by", "take", "create_sheet"] ∧
    (∀ (j : Json) (t : String), getStr j "type" = some t →
      (typeErrors j = [] ↔ t ∈ VALID_TYPES)) ∧
    (∀ (reg : FileRegistry) (doc : Json) (ops : List Json) (j : Json) (t : String),
      docOps doc = some ops → j ∈ ops → getStr j "type" = some t →
      t ∉ VALID_TYPES →
      (parseOperations reg doc).1 = [] ∧ (parseOperations reg doc).2 ≠ []) := by
  refine ⟨rfl, ?_, ?_⟩
  · intro j t hts
    rw [typeErrors, hts]
    show (if VALID_TYPES.contains t = true then []
      else ["unknown operation type: " ++ t]) = [] ↔ t ∈ VALID_TYPES
    constructor
    · intro he
      by_cases hm : t ∈ VALID_TYPES
      · exact hm
      · have hc : VALID_TYPES.contains t = false := by simpa using hm
        rw [hc] at he
        simp at he
    · intro hm
      have hc : VALID_TYPES.contains t = true := by simpa using hm
      rw [hc]
      simp
  · intro reg doc ops j t hops hj hts hnm
    have hne : opErrors reg j ≠ [] := by
      refine ne_nil_left (ne_nil_left ?_)
      rw [typeErrors, hts]
      show (if VALID_TYPES.contains t = true then []
        else ["unknown operation type: " ++ t]) ≠ []
      have hc : VALID_TYPES.contains t = false := by simpa using hnm
      rw [hc]
      simp
    rcases parseOperations_fail reg doc ops j hops hj hne with ⟨hp, hflat⟩
    rw [hp]
    exact ⟨rfl, hflat⟩

/-- C9: inside a compute expression exactly the four scalar functions
ROUND, ABS, MAX, MIN are accepted: a call node passes the compute-context
validation iff its function is one of the four (and its arguments pass),
and any other name — row-level or aggregate whitelisting notwithstanding —
is rejected. -/
theorem compute_function_whitelist :
    SCALAR_FUNCTIONS = ["ROUND", "ABS", "MAX", "MIN"] ∧
    computeCtx.wl = SCALAR_FUNCTIONS ∧
    (∀ (reg : FileRegistry) (fn : String) (args : ExprList),
      exprErrors reg computeCtx (.call fn args) = [] ↔
        (fn ∈ SCALAR_FUNCTIONS ∧ exprErrorsL reg computeCtx args = [])) ∧
    (∀ fn : String, fn ∈ ROW_FUNCTIONS ∨ fn ∈ AGGREGATE_FUNCTIONS →
      fn ∉ SCALAR_FUNCTIONS →
      ∀ (reg : FileRegistry) (args : ExprList),
        exprErrors reg computeCtx (.call fn args) ≠ []) := by
  refine ⟨rfl, rfl, ?_, ?_⟩
  · intro reg fn args
    rw [exprErrors]
    constructor
    · intro he
      rcases List.append_eq_nil.mp he with ⟨h1, h2⟩
      by_cases hm : fn ∈ computeCtx.wl
      · exact ⟨hm, h2⟩
      · have hc : computeCtx.wl.contains fn = false := by simpa using hm
        rw [hc] at h1
        simp at h1
    · intro ⟨hm, h2⟩
      have hc : computeCtx.wl.contains fn = true := by simpa using hm
      rw [hc, h2]
      simp
  · intro fn _ hwl reg args
    have : fn ∈ funcsIn (.call fn args) := by
      rw [funcsIn]
      exact List.mem_cons_self fn (funcsInL args)
    exact exprErrors_funcs reg computeCtx (.call fn args) fn this hwl

/-- C10: a compute operation whose `expression` field is a raw string is a
validation failure — the wire shape itself admits no string expression, the
operation yields an error, and the document produces zero operations, so a
string expression never reaches evaluation. -/
theorem compute_string_expression_rejected :
    (∀ s : String, toExpr (.jstr s) = .error "invalid expression object") ∧
    (∀ (reg : FileRegistry) (j : Json) (s : String),
      getStr j "type" = some "compute" → getField j "expression" = some (.jstr s) →
      opErrors reg j ≠ []) ∧
    (∀ (reg : FileRegistry) (doc : Json) (ops : List Json) (j : Json) (s : String),
      docOps doc = some ops → j ∈ ops →
      getStr j "type" = some "compute" → getField j "expression" = some (.jstr s) →
      (parseOperations reg doc).1 = [] ∧ (parseOperations reg doc).2 ≠ []) := by
  have hop : ∀ (reg : FileRegistry) (j : Json) (s : String),
      getStr j "type" = some "compute" → getField j "expression" = some (.jstr s) →
      opErrors reg j ≠ [] := by
    intro reg j s hty hex
    refine ne_nil_left (ne_nil_right ?_)
    rw [requiredFieldErrors, hty]
    refine ne_nil_left ?_
    rw [requiredFieldsOf]
    refine flatMap_ne_nil_of_mem (List.mem_cons_self _ _) ?_
    rw [reqField]
    show (match getField j "expression" with
      | none => ["missing required field: " ++ "expression"]
      | some v => if fieldKindOk .obj v then []
          else ["field has the wrong kind: " ++ "expression"]) ≠ []
    rw [hex]
    simp [fieldKindOk]
  refine ⟨fun s => rfl, hop, ?_⟩
  · intro reg doc ops j s hops hj hty hex
    rcases parseOperations_fail reg doc ops j hops hj (hop reg j s hty hex)
      with ⟨hp, hflat⟩
    rw [hp]
    exact ⟨rfl, hflat⟩

/-! ### Concrete data for witnesses -/

def tW : Table :=
  ⟨"orders",
    [("price", [.num 100, .num 200]),
     ("status", [.text "done", .text "open"])]⟩

def regW : FileRegistry :=
  ⟨[("f1", ⟨"f1", "orders.xlsx", [("orders", tW)]⟩)]⟩

def exprW : Expr := .binop "&" (.col "status") (.lit (.text "!"))

/-- C1: over a fixed loaded dataset, every operation expression that passes
validation (with result cells assigned to its variables) is translatable by
the Formula Generator, and every generated formula — its `\x7brow\x7d`
placeholder resolved to the concrete data row — evaluates under spreadsheet
semantics over the same source data to exactly the Evaluator's result. -/
theorem value_formula_agreement
    (reg : FileRegistry) (hnd : reg.noDupSheetNames = true)
    (fid sheet : String) (t : Table) (ht : reg.getTable fid sheet = some t)
    (r : Nat) (vars : List (String × CellValue))
    (varCell : String → Option (String × String × Nat))
    (hvc : ∀ x a, varCell x = some a → ∃ v, lookupAssoc vars x = some v ∧
      (workbookOf reg).cellAt a.1 a.2.1 a.2.2 = .ok v)
    (e : Expr) :
    (∀ cfg : ExprCtx, cfg.colTable = some t → exprErrors reg cfg e = [] →
      (∀ x, x ∈ varsIn e → (varCell x).isSome = true) →
      ∃ f, genExpr ⟨reg, fid, sheet, varCell⟩ e = .ok f) ∧
    (∀ f, genExpr ⟨reg, fid, sheet, varCell⟩ e = .ok f →
      excelEval reg (workbookOf reg) (f.inst (r + 2)) =
        evalExpr ⟨reg, rowCtxOf t r, vars⟩ e) :=
  ⟨fun cfg hcfg he hv => genTotalE reg fid sheet t ht varCell cfg hcfg e he hv,
   fun f hf => genAgreeE reg hnd fid sheet t ht r vars varCell hvc e f hf⟩

theorem numsOf_append_blank (l₁ l₂ : List CellValue) :
    numsOf (l₁ ++ .blank :: l₂) = numsOf (l₁ ++ l₂) := by
  simp [numsOf, List.filterMap_append, List.filterMap_cons]

/-- C2: the aggregate functions SUM, AVERAGE and COUNT exclude blank cells
from numeric aggregation — numerator and denominator alike: inserting a
blank anywhere in a column changes none of them, AVERAGE over
[1, blank, 3] is 2 (not 4/3), and a blank is never treated as zero. -/
theorem aggregates_exclude_blanks :
    (∀ (reg : FileRegistry) (l₁ l₂ : List CellValue),
      applyFunc reg "SUM" [.column (l₁ ++ .blank :: l₂)] =
        applyFunc reg "SUM" [.column (l₁ ++ l₂)] ∧
      applyFunc reg "COUNT" [.column (l₁ ++ .blank :: l₂)] =
        applyFunc reg "COUNT" [.column (l₁ ++ l₂)] ∧
      applyFunc reg "AVERAGE" [.column (l₁ ++ .blank :: l₂)] =
        applyFunc reg "AVERAGE" [.column (l₁ ++ l₂)]) ∧
    (∀ reg : FileRegistry,
      applyFunc reg "AVERAGE" [.column [.num 1, .blank, .num 3]] = .ok (.num 2) ∧
      applyFunc reg "AVERAGE" [.column [.num 1, .blank, .num 3]] ≠
        .ok (.num (4 / 3)) ∧
      applyFunc reg "SUM" [.column [.num 1, .blank, .num 3]] = .ok (.num 4) ∧
      applyFunc reg "COUNT" [.column [.num 1, .blank, .num 3]] = .ok (.num 2)) := by
  constructor
  · intro reg l₁ l₂
    refine ⟨?_, ?_, ?_⟩
    · show (Except.ok (aggSUM (l₁ ++ .blank :: l₂)) : Except String CellValue) =
        Except.ok (aggSUM (l₁ ++ l₂))
      exact congrArg Except.ok (by simp [aggSUM, numsOf_append_blank])
    · show (Except.ok (aggCOUNT (l₁ ++ .blank :: l₂)) : Except String CellValue) =
        Except.ok (aggCOUNT (l₁ ++ l₂))
      exact congrArg Except.ok (by simp [aggCOUNT, numsOf_append_blank])
    · show aggAVERAGE (l₁ ++ .blank :: l₂) = aggAVERAGE (l₁ ++ l₂)
      simp [aggAVERAGE, numsOf_append_blank]
  · intro reg
    have havg : aggAVERAGE [.num 1, .blank, .num 3] = .ok (.num 2) := by
      simp [aggAVERAGE, numsOf, List.filterMap]
      norm_num
    refine ⟨?_, ?_, ?_, ?_⟩
    · show aggAVERAGE [.num 1, .blank, .num 3] = .ok (.num 2)
      exact havg
    · show aggAVERAGE [.num 1, .blank, .num 3] ≠ .ok (.num (4 / 3))
      rw [havg]
      intro h
      have h2 : (2 : ℚ) = 4 / 3 := by
        have := congrArg (fun x => match x with
          | Except.ok (CellValue.num q) => q
          | _ => 0) h
        simpa using this
      norm_num at h2
    · show (Except.ok (aggSUM [.num 1, .blank, .num 3]) : Except String CellValue) =
        Except.ok (.num 4)
      refine congrArg Except.ok ?_
      show CellValue.num (numsOf [.num 1, .blank, .num 3]).sum = .num 4
      refine congrArg CellValue.num ?_
      show ((1 : ℚ) + (3 + 0)) = 4
      norm_num
    · show (Except.ok (aggCOUNT [.num 1, .blank, .num 3]) : Except String CellValue) =
        Except.ok (.num 2)
      refine congrArg Except.ok ?_
      show CellValue.num ((numsOf [.num 1, .blank, .num 3]).length : ℚ) = .num 2
      refine congrArg CellValue.num ?_
      norm_num [numsOf, List.filterMap]

/-- The add_column step, with its table lookup resolved. -/
theorem execOpCore_addColumn (st : ExecState) (fid table name : String) (e : Expr)
    (t : Table) (ht : st.reg.getTable fid table = some t) :
    execOpCore st (.addColumn fid table name e) =
      (if t.hasColumn name then
        st.failOut ("add_column: column already exists: " ++ name)
      else if (rowFailures st.reg st.res.vars t e).isEmpty then
        ⟨st.reg, st.varRows, [],
          [((fid, table, name), rowValues st.reg st.res.vars t e)], [],
          (match genExpr ⟨st.reg, fid, table, varCellOf st.varRows⟩ e with
            | .ok f => ["=" ++ f.render]
            | .error _ => []), []⟩
      else st.failOut (renderRowErrors (rowFailures st.reg st.res.vars t e))) := by
  rw [execOpCore, ht]

/-- C3: if any row of an add_column formula fails to evaluate, the
operation contributes no column at all to new_columns, and the single
recorded error message is rendered from exactly the failing rows — every
(index, message) pair it names is a real failing row, and every failing
row below the row count is named (summarised when numerous). -/
theorem add_column_atomicity
    (st : ExecState) (fid table name : String) (e : Expr) (t : Table)
    (ht : st.reg.getTable fid table = some t)
    (hnc : t.hasColumn name = false)
    (hfail : rowFailures st.reg st.res.vars t e ≠ []) :
    (execOp st (.addColumn fid table name e)).res.newColumns = st.res.newColumns ∧
    (execOp st (.addColumn fid table name e)).res.errors =
      st.res.errors ++ [renderRowErrors (rowFailures st.reg st.res.vars t e)] ∧
    (∀ p ∈ rowFailures st.reg st.res.vars t e,
      p.1 < t.rowCount ∧ evalRowScalar st.reg st.res.vars t e p.1 = .error p.2) ∧
    (∀ r, r < t.rowCount → ∀ m, evalRowScalar st.reg st.res.vars t e r = .error m →
      (r, m) ∈ rowFailures st.reg st.res.vars t e) := by
  have hempty : (rowFailures st.reg st.res.vars t e).isEmpty = false := by
    rcases h : rowFailures st.reg st.res.vars t e with _ | _
    · exact absurd h hfail
    · rfl
  have hcore : execOpCore st (.addColumn fid table name e) =
      st.failOut (renderRowErrors (rowFailures st.reg st.res.vars t e)) := by
    rw [execOpCore_addColumn st fid table name e t ht]
    rw [if_neg (by simp [hnc]), if_neg (by simp [hempty])]
  refine ⟨?_, ?_, ?_, ?_⟩
  · show st.res.newColumns ++ (execOpCore st (.addColumn fid table name e)).dNew = _
    rw [hcore]
    simp [ExecState.failOut]
  · show st.res.errors ++ (execOpCore st (.addColumn fid table name e)).dErr = _
    rw [hcore]
    rfl
  · intro p hp
    rw [rowFailures, rowResults] at hp
    rcases List.mem_filterMap.mp hp with ⟨q, hq, hmatch⟩
    rcases List.mem_map.mp hq with ⟨r, hr, rfl⟩
    rcases hres : evalRowScalar st.reg st.res.vars t e r with m | v
    · rw [hres] at hmatch
      have : some (r, m) = some p := hmatch
      cases this
      exact ⟨List.mem_range.mp hr, hres⟩
    · rw [hres] at hmatch
      cases hmatch
  · intro r hr m hm
    rw [rowFailures, rowResults]
    refine List.mem_filterMap.mpr ⟨(r, evalRowScalar st.reg st.res.vars t e r),
      List.mem_map.mpr ⟨r, List.mem_range.mpr hr, rfl⟩, ?_⟩
    rw [hm]

theorem add_column_atomicity_witness :
    (execOp (initState regW) (.addColumn "f1" "orders" "extra" (.evar "nope"))).res.newColumns =
      (initState regW).res.newColumns ∧
    (execOp (initState regW) (.addColumn "f1" "orders" "extra" (.evar "nope"))).res.errors =
      (initState regW).res.errors ++
        [renderRowErrors (rowFailures (initState regW).reg (initState regW).res.vars tW
          (.evar "nope"))] :=
  ⟨(add_column_atomicity (initState regW) "f1" "orders" "extra" (.evar "nope") tW
      rfl rfl (by decide)).1,
   (add_column_atomicity (initState regW) "f1" "orders" "extra" (.evar "nope") tW
      rfl rfl (by decide)).2.1⟩

/-- C6: the Executor runs operations strictly in list order; every result
field is append-only, so the variables and columns recorded by earlier
successful operations survive a later failure unchanged (no rollback); and
an operation that reads an unbound variable fails with an
undefined-variable error instead of receiving a default. -/
theorem executor_order_no_rollback :
    (∀ (st : ExecState) (ops₁ ops₂ : List Operation),
      (ops₁ ++ ops₂).foldl execOp st = ops₂.foldl execOp (ops₁.foldl execOp st)) ∧
    (∀ (st : ExecState) (op : Operation),
      (execOp st op).res.vars = st.res.vars ++ (execOpCore st op).dVars ∧
      (execOp st op).res.newColumns = st.res.newColumns ++ (execOpCore st op).dNew ∧
      (execOp st op).res.updatedColumns =
        st.res.updatedColumns ++ (execOpCore st op).dUpd ∧
      (execOp st op).res.errors = st.res.errors ++ (execOpCore st op).dErr) ∧
    (∀ (st : ExecState) (x y : String),
      lookupAssoc st.res.vars x = none → lookupAssoc st.res.vars y = none →
      (execOp st (.compute (.evar x) y)).res.vars = st.res.vars ∧
      lookupAssoc (execOp st (.compute (.evar x) y)).res.vars y = none ∧
      (execOp st (.compute (.evar x) y)).res.errors =
        st.res.errors ++ ["undefined variable: " ++ x]) := by
  refine ⟨?_, ?_, ?_⟩
  · intro st ops₁ ops₂
    exact List.foldl_append execOp st ops₁ ops₂
  · intro st op
    exact ⟨rfl, rfl, rfl, rfl⟩
  · intro st x y hx hy
    have hcore : execOpCore st (.compute (.evar x) y) =
        st.failOut ("undefined variable: " ++ x) := by
      rw [execOpCore, hy]
      have : evalExpr ⟨st.reg, [], st.res.vars⟩ (.evar x) =
          .error ("undefined variable: " ++ x) := by
        rw [evalExpr, hx]
      rw [this]
    refine ⟨?_, ?_, ?_⟩
    · show st.res.vars ++ (execOpCore st (.compute (.evar x) y)).dVars = _
      rw [hcore]
      simp [ExecState.failOut]
    · show lookupAssoc (st.res.vars ++ (execOpCore st (.compute (.evar x) y)).dVars) y = _
      rw [hcore]
      simpa [ExecState.failOut] using hy
    · show st.res.errors ++ (execOpCore st (.compute (.evar x) y)).dErr = _
      rw [hcore]
      rfl

theorem executor_order_no_rollback_witness :
    (execOp (initState regW) (.compute (.evar "a") "b")).res.vars =
      (initState regW).res.vars ∧
    (execOp (initState regW) (.compute (.evar "a") "b")).res.errors =
      (initState regW).res.errors ++ ["undefined variable: " ++ "a"] :=
  ⟨(executor_order_no_rollback.2.2 (initState regW) "a" "b" rfl rfl).1,
   (executor_order_no_rollback.2.2 (initState regW) "a" "b" rfl rfl).2.2⟩

/-- C8: add_column never mutates the source tables — the registry after the
step is the registry before it; the operation succeeds only when the target
column is absent (an existing column is an error that records nothing); and
on success only new_columns receives the new values, while variables,
updated_columns and errors are untouched. -/
theorem add_column_frame
    (st : ExecState) (fid table name : String) (e : Expr) :
    (execOp st (.addColumn fid table name e)).reg = st.reg ∧
    (∀ t, st.reg.getTable fid table = some t → t.hasColumn name = true →
      (execOp st (.addColumn fid table name e)).res.newColumns = st.res.newColumns ∧
      (execOp st (.addColumn fid table name e)).res.errors =
        st.res.errors ++ ["add_column: column already exists: " ++ name]) ∧
    (∀ t, st.reg.getTable fid table = some t → t.hasColumn name = false →
      rowFailures st.reg st.res.vars t e = [] →
      (execOp st (.addColumn fid table name e)).res.newColumns =
        st.res.newColumns ++ [((fid, table, name), rowValues st.reg st.res.vars t e)] ∧
      (execOp st (.addColumn fid table name e)).res.vars = st.res.vars ∧
      (execOp st (.addColumn fid table name e)).res.updatedColumns =
        st.res.updatedColumns ∧
      (execOp st (.addColumn fid table name e)).res.errors = st.res.errors) := by
  refine ⟨?_, ?_, ?_⟩
  · show (execOpCore st (.addColumn fid table name e)).reg = st.reg
    rw [execOpCore]
    rcases st.reg.getTable fid table with _ | t
    · rfl
    · by_cases hc : t.hasColumn name
      · simp only [hc, if_true]
        rfl
      · simp only [hc, Bool.false_eq_true, if_false]
        by_cases hf : (rowFailures st.reg st.res.vars t e).isEmpty
        · simp only [hf, if_true]
        · simp only [hf, Bool.false_eq_true, if_false]
          rfl
  · intro t ht hc
    have hcore : execOpCore st (.addColumn fid table name e) =
        st.failOut ("add_column: column already exists: " ++ name) := by
      rw [execOpCore_addColumn st fid table name e t ht]
      rw [if_pos (by simp [hc])]
    constructor
    · show st.res.newColumns ++ (execOpCore st (.addColumn fid table name e)).dNew = _
      rw [hcore]
      simp [ExecState.failOut]
    · show st.res.errors ++ (execOpCore st (.addColumn fid table name e)).dErr = _
      rw [hcore]
      rfl
  · intro t ht hc hok
    have hcore : execOpCore st (.addColumn fid table name e) =
        ⟨st.reg, st.varRows, [],
          [((fid, table, name), rowValues st.reg st.res.vars t e)], [],
          (match genExpr ⟨st.reg, fid, table, varCellOf st.varRows⟩ e with
            | .ok f => ["=" ++ f.render]
            | .error _ => []), []⟩ := by
      rw [execOpCore_addColumn st fid table name e t ht]
      rw [if_neg (by simp [hc]), if_pos (by simp [hok])]
    refine ⟨?_, ?_, ?_, ?_⟩
    · show st.res.newColumns ++ (execOpCore st (.addColumn fid table name e)).dNew = _
      rw [hcore]
    · show st.res.vars ++ (execOpCore st (.addColumn fid table name e)).dVars = _
      rw [hcore]
      simp
    · show st.res.updatedColumns ++ (execOpCore st (.addColumn fid table name e)).dUpd = _
      rw [hcore]
      simp
    · show st.res.errors ++ (execOpCore st (.addColumn fid table name e)).dErr = _
      rw [hcore]
      simp

theorem add_column_frame_witness :
    (execOp (initState regW) (.addColumn "f1" "orders" "tag" (.lit (.text "hi")))).reg =
      (initState regW).reg ∧
    (execOp (initState regW) (.addColumn "f1" "orders" "tag" (.lit (.text "hi")))).res.newColumns =
      (initState regW).res.newColumns ++
        [(("f1", "orders", "tag"),
          rowValues (initState regW).reg (initState regW).res.vars tW (.lit (.text "hi")))] :=
  ⟨(add_column_frame (initState regW) "f1" "orders" "tag" (.lit (.text "hi"))).1,
   ((add_column_frame (initState regW) "f1" "orders" "tag" (.lit (.text "hi"))).2.2 tW
      rfl rfl (by decide)).1⟩

/-- C7: VLOOKUP's second argument is a two-segment `file-id.sheet` table
reference (a one-segment value is rejected); on a match against the named
key column it returns the corresponding entry of the named value column;
with no match it yields an evaluation error — unless the call is wrapped in
IFERROR, in which case the fallback value is produced. -/
theorem vlookup_two_segment_semantics
    (reg : FileRegistry) (fid sheet tref keyCol valCol : String) (t : Table)
    (hsplit : splitDots tref = [fid, sheet])
    (ht : reg.getTable fid sheet = some t)
    (keys vals : List CellValue)
    (hk : t.getColumn keyCol = some keys) (hv : t.getColumn valCol = some vals)
    (lookup : CellValue) :
    (∀ i, keys.findIdx? (fun k => valueEq k lookup) = some i →
      applyFunc reg "VLOOKUP"
        [.scalar lookup, .scalar (.text tref), .scalar (.text keyCol),
          .scalar (.text valCol)] = .ok (vals.getD i .blank)) ∧
    (keys.findIdx? (fun k => valueEq k lookup) = none →
      applyFunc reg "VLOOKUP"
        [.scalar lookup, .scalar (.text tref), .scalar (.text keyCol),
          .scalar (.text valCol)] =
        .error ("VLOOKUP: no match for " ++ lookup.toText)) ∧
    (∀ s' : String, splitDots s' = [s'] →
      applyFunc reg "VLOOKUP"
        [.scalar lookup, .scalar (.text s'), .scalar (.text keyCol),
          .scalar (.text valCol)] =
        .error ("VLOOKUP: table reference must be file-id.sheet: " ++ s')) ∧
    (keys.findIdx? (fun k => valueEq k lookup) = none →
      ∀ (rc vc : List (String × CellValue)) (fb : CellValue),
        evalExpr ⟨reg, rc, vc⟩ (.call "IFERROR" (.cons
          (.call "VLOOKUP" (.cons (.lit lookup) (.cons (.lit (.text tref))
            (.cons (.lit (.text keyCol)) (.cons (.lit (.text valCol)) .nil)))))
          (.cons (.lit fb) .nil))) = .ok (.scalar fb)) := by
  have happ : ∀ tr : String,
      applyFunc reg "VLOOKUP"
        [.scalar lookup, .scalar (.text tr), .scalar (.text keyCol),
          .scalar (.text valCol)] = vlookup reg lookup tr keyCol valCol :=
    fun _ => rfl
  have hbody : ∀ hres : Except String CellValue,
      (match keys.findIdx? (fun k => valueEq k lookup) with
        | some i => Except.ok (vals.getD i .blank)
        | none => Except.error ("VLOOKUP: no match for " ++ lookup.toText)) = hres →
      vlookup reg lookup tref keyCol valCol = hres := by
    intro hres hmatch
    unfold vlookup
    rw [hsplit]
    show (match reg.getTable fid sheet with
      | none => Except.error ("VLOOKUP: table not found: " ++ tref)
      | some t =>
          match t.getColumn keyCol, t.getColumn valCol with
          | some keys, some vals =>
              match keys.findIdx? (fun k => valueEq k lookup) with
              | some i => Except.ok (vals.getD i .blank)
              | none => Except.error ("VLOOKUP: no match for " ++ lookup.toText)
          | none, _ => Except.error ("VLOOKUP: key column not found: " ++ keyCol)
          | _, none => Except.error ("VLOOKUP: value column not found: " ++ valCol)) = hres
    rw [ht]
    show (match t.getColumn keyCol, t.getColumn valCol with
      | some keys, some vals =>
          match keys.findIdx? (fun k => valueEq k lookup) with
          | some i => Except.ok (vals.getD i .blank)
          | none => Except.error ("VLOOKUP: no match for " ++ lookup.toText)
      | none, _ => Except.error ("VLOOKUP: key column not found: " ++ keyCol)
      | _, none => Except.error ("VLOOKUP: value column not found: " ++ valCol)) = hres
    rw [hk, hv]
    exact hmatch
  have herr : keys.findIdx? (fun k => valueEq k lookup) = none →
      applyFunc reg "VLOOKUP"
        [.scalar lookup, .scalar (.text tref), .scalar (.text keyCol),
          .scalar (.text valCol)] =
        .error ("VLOOKUP: no match for " ++ lookup.toText) := by
    intro hnone
    rw [happ]
    exact hbody _ (by rw [hnone])
  refine ⟨?_, herr, ?_, ?_⟩
  · intro i hi
    rw [happ]
    exact hbody _ (by rw [hi])
  · intro s' hs'
    rw [happ]
    unfold vlookup
    rw [hs']
  · intro hnone rc vc fb
    have hvl : evalExpr ⟨reg, rc, vc⟩ (.call "VLOOKUP" (.cons (.lit lookup)
        (.cons (.lit (.text tref)) (.cons (.lit (.text keyCol))
          (.cons (.lit (.text valCol)) .nil))))) =
        .error ("VLOOKUP: no match for " ++ lookup.toText) := by
      rw [evalExpr_call_general _ "VLOOKUP" _ (by decide) (by decide) (by decide)]
      show (applyFunc reg "VLOOKUP"
        [.scalar lookup, .scalar (.text tref), .scalar (.text keyCol),
          .scalar (.text valCol)]).map Value.scalar = _
      rw [herr hnone]
      rfl
    show (match evalExpr ⟨reg, rc, vc⟩ (.call "VLOOKUP" (.cons (.lit lookup)
        (.cons (.lit (.text tref)) (.cons (.lit (.text keyCol))
          (.cons (.lit (.text valCol)) .nil))))) with
      | .ok v => Except.ok v
      | .error _ => evalExpr ⟨reg, rc, vc⟩ (.lit fb)) = .ok (.scalar fb)
    rw [hvl]
    rfl

def badOpW : Json := .jobj (.cons "type" (.jstr "delete_rows") .nil)

def badDocW : Json :=
  .jobj (.cons "operations" (.jarr (.cons badOpW .nil)) .nil)

def strComputeOpW : Json :=
  .jobj (.cons "type" (.jstr "compute")
    (.cons "expression" (.jstr "a + b") (.cons "as" (.jstr "x") .nil)))

def strComputeDocW : Json :=
  .jobj (.cons "operations" (.jarr (.cons strComputeOpW .nil)) .nil)

theorem validator_fail_closed_witness :
    opErrors regW badOpW ≠ [] ∧
    (parseOperations regW badDocW).1 = [] ∧ (parseOperations regW badDocW).2 ≠ [] :=
  ⟨validator_fail_closed.1 regW badOpW (fun t ht => by
      have h2 : some "delete_rows" = some t := ht
      cases h2
      decide),
   (validator_fail_closed.2.2.2.2.2 regW badDocW [badOpW] badOpW rfl
      (List.mem_singleton.mpr rfl) (by decide)).1,
   (validator_fail_closed.2.2.2.2.2 regW badDocW [badOpW] badOpW rfl
      (List.mem_singleton.mpr rfl) (by decide)).2.1⟩

theorem operation_type_whitelist_witness :
    typeErrors (Json.jobj (.cons "type" (.jstr "sort") .nil)) = [] ∧
    (parseOperations regW badDocW).1 = [] :=
  ⟨(operation_type_whitelist.2.1 (Json.jobj (.cons "type" (.jstr "sort") .nil))
      "sort" rfl).mpr (by decide),
   (operation_type_whitelist.2.2 regW badDocW [badOpW] badOpW "delete_rows" rfl
      (List.mem_singleton.mpr rfl) rfl (by decide)).1⟩

theorem compute_function_whitelist_witness :
    exprErrors regW computeCtx (.call "ROUND" .nil) = [] ∧
    exprErrors regW computeCtx (.call "IF" .nil) ≠ [] :=
  ⟨(compute_function_whitelist.2.2.1 regW "ROUND" .nil).mpr ⟨by decide, rfl⟩,
   compute_function_whitelist.2.2.2 "IF" (Or.inl (by decide)) (by decide) regW .nil⟩

theorem compute_string_expression_rejected_witness :
    opErrors regW strComputeOpW ≠ [] ∧
    (parseOperations regW strComputeDocW).1 = [] :=
  ⟨compute_string_expression_rejected.2.1 regW strComputeOpW "a + b" rfl rfl,
   (compute_string_expression_rejected.2.2 regW strComputeDocW [strComputeOpW]
      strComputeOpW "a + b" rfl (List.mem_singleton.mpr rfl) rfl rfl).1⟩

def tV : Table :=
  ⟨"customers",
    [("id", [.text "c1", .text "c2"]), ("name", [.text "Ann", .text "Bo"])]⟩

def regV : FileRegistry := ⟨[("f2", ⟨"f2", "customers.xlsx", [("customers", tV)]⟩)]⟩

theorem vlookup_two_segment_semantics_witness :
    applyFunc regV "VLOOKUP"
      [.scalar (.text "c2"), .scalar (.text "f2.customers"), .scalar (.text "id"),
        .scalar (.text "name")] =
      .ok ([CellValue.text "Ann", .text "Bo"].getD 1 .blank) ∧
    evalExpr ⟨regV, [], []⟩ (.call "IFERROR" (.cons
      (.call "VLOOKUP" (.cons (.lit (.text "zzz")) (.cons (.lit (.text "f2.customers"))
        (.cons (.lit (.text "id")) (.cons (.lit (.text "name")) .nil)))))
      (.cons (.lit (.text "fallback")) .nil))) = .ok (.scalar (.text "fallback")) :=
  ⟨(vlookup_two_segment_semantics regV "f2" "customers" "f2.customers" "id" "name" tV
      (by decide) rfl [CellValue.text "c1", .text "c2"] [CellValue.text "Ann", .text "Bo"]
      rfl rfl (.text "c2")).1 1 (by decide),
   (vlookup_two_segment_semantics regV "f2" "customers" "f2.customers" "id" "name" tV
      (by decide) rfl [CellValue.text "c1", .text "c2"] [CellValue.text "Ann", .text "Bo"]
      rfl rfl (.text "zzz")).2.2.2 (by decide) [] [] (.text "fallback")⟩

theorem value_formula_agreement_witness :
    excelEval regW (workbookOf regW) (Formula.inst (0 + 2)
      (.fbin "&" (.cell "orders" (excelColName 1) .placeholder) (.flit (.text "!")))) =
      evalExpr ⟨regW, rowCtxOf tW 0, []⟩ exprW ∧
    evalExpr ⟨regW, rowCtxOf tW 0, []⟩ exprW = .ok (.scalar (.text "done!")) :=
  ⟨(value_formula_agreement regW (by decide) "f1" "orders" tW (by rfl) 0 []
      (fun _ => none) (fun _ _ h => Option.noConfusion h) exprW).2 _ (by rfl),
   by rfl⟩

end Selgetabel

